import Mathlib

/-!
Shallow embedding of the Mealio service layer
(`backend/app/services.py`, `backend/app/ingredient_parser_service.py`)
together with proofs of the specification's claims about it.

Database tables are embedded as Lean lists of rows; SQLAlchemy's
`scalar_one_or_none` is embedded as a function that errors (as the real one
raises `MultipleResultsFound`) on a multi-row result.  UUIDs are embedded as
`Nat` identifiers, SQL `DECIMAL` / Python `float` quantities as `Rat`.
-/

namespace Mealio

/-- `users` table row (`models.User`): only the columns the verified
operations read or write. -/
structure UserRow where
  id : Nat
  currentHouseholdId : Option Nat
  deriving Repr, DecidableEq

/-- `households` table row (`models.Household`). -/
structure HouseholdRow where
  id : Nat
  name : String
  createdBy : Nat
  inviteCode : String
  deriving Repr, DecidableEq

/-- `household_memberships` table row (`models.HouseholdMembership`). -/
structure MembershipRow where
  householdId : Nat
  userId : Nat
  role : String
  deriving Repr, DecidableEq

/-- `recipes` table row (`models.Recipe`): the columns used by the
access-control and grant-propagation logic. -/
structure RecipeRow where
  id : Nat
  userId : Nat
  sharedWithHousehold : Bool
  deriving Repr, DecidableEq

/-- `recipe_household_access` table row (`models.RecipeHouseholdAccess`). -/
structure AccessGrantRow where
  recipeId : Nat
  householdId : Nat
  grantedBy : Nat
  deriving Repr, DecidableEq

/-- The relational store as seen by the household / access-grant services. -/
structure DB where
  users : List UserRow
  households : List HouseholdRow
  memberships : List MembershipRow
  recipes : List RecipeRow
  grants : List AccessGrantRow
  deriving Repr, DecidableEq

/-- SQLAlchemy `Result.scalar_one_or_none()`: `none` on an empty result,
the row on a singleton result, and an error (`MultipleResultsFound` in the
source) on anything larger. -/
def scalarOneOrNone {α : Type} (l : List α) : Except String (Option α) :=
  match l with
  | [] => .ok none
  | [a] => .ok (some a)
  | _ :: _ :: _ => .error "MultipleResultsFound"

/-! ## Queries (`UserService`, `HouseholdService` reads) -/

/-- `UserService.get_user`. -/
def get_user (s : DB) (userId : Nat) : Except String (Option UserRow) :=
  scalarOneOrNone (s.users.filter (fun u => u.id == userId))

/-- `HouseholdService.get_household_by_invite_code`. -/
def get_household_by_invite_code (s : DB) (inviteCode : String) :
    Except String (Option HouseholdRow) :=
  scalarOneOrNone (s.households.filter (fun h => h.inviteCode == inviteCode))

/-- The SQL join in `HouseholdService.get_user_household`:
`select(Household).join(HouseholdMembership).where(user_id == userId)`. -/
def user_household_join (s : DB) (userId : Nat) : List HouseholdRow :=
  s.households.flatMap (fun h =>
    (s.memberships.filter
        (fun m => m.householdId == h.id && m.userId == userId)).map (fun _m => h))

/-- `HouseholdService.get_user_household`. -/
def get_user_household (s : DB) (userId : Nat) : Except String (Option HouseholdRow) :=
  scalarOneOrNone (user_household_join s userId)

/-! ## Access-grant operations (`RecipeService`) -/

/-- `RecipeService.grant_household_access`: no-op returning `none` when a
grant for the `(recipe, household)` pair already exists, otherwise inserts
the grant row and returns it. -/
def grant_household_access (s : DB) (recipeId householdId grantedBy : Nat) :
    Except String (DB × Option AccessGrantRow) :=
  match scalarOneOrNone (s.grants.filter
      (fun g => g.recipeId == recipeId && g.householdId == householdId)) with
  | .error e => .error e
  | .ok (some _) => .ok (s, none)
  | .ok none =>
    let g : AccessGrantRow :=
      { recipeId := recipeId, householdId := householdId, grantedBy := grantedBy }
    .ok ({ s with grants := s.grants ++ [g] }, some g)

/-- `RecipeService.can_user_edit_recipe`: owner check only. -/
def can_user_edit_recipe (s : DB) (recipeId userId : Nat) : Except String Bool :=
  match scalarOneOrNone
      ((s.recipes.filter (fun r => r.id == recipeId)).map (fun r => r.userId)) with
  | .error e => .error e
  | .ok owner => .ok (owner == some userId)

/-- `RecipeService.can_user_access_recipe`: owner, else current household
holding a grant. -/
def can_user_access_recipe (s : DB) (recipeId userId : Nat) : Except String Bool :=
  match scalarOneOrNone
      ((s.recipes.filter (fun r => r.id == recipeId)).map (fun r => r.userId)) with
  | .error e => .error e
  | .ok owner =>
    if owner == some userId then .ok true
    else
      match get_user_household s userId with
      | .error e => .error e
      | .ok none => .ok false
      | .ok (some household) =>
        match scalarOneOrNone (s.grants.filter
            (fun g => g.recipeId == recipeId && g.householdId == household.id)) with
        | .error e => .error e
        | .ok acc => .ok acc.isSome

/-- Well-formedness of the store: the uniqueness constraints declared in
`models.py` (unique user ids, household ids, invite codes, one membership
per user via `unique_user_household`, unique recipe ids, and the
`unique_recipe_household_access` pair constraint). -/
abbrev WF (s : DB) : Prop :=
  s.users.Pairwise (fun a b => a.id ≠ b.id) ∧
  s.households.Pairwise (fun a b => a.id ≠ b.id) ∧
  s.households.Pairwise (fun a b => a.inviteCode ≠ b.inviteCode) ∧
  s.memberships.Pairwise (fun a b => a.userId ≠ b.userId) ∧
  s.recipes.Pairwise (fun a b => a.id ≠ b.id) ∧
  s.grants.Pairwise (fun a b => ¬(a.recipeId = b.recipeId ∧ a.householdId = b.householdId))

/-! ## Ingredient parsing (`IngredientParsingService`) -/

/-- One element of `parsed.amount` as returned by the external
`ingredient_parser` library: a quantity/unit pair with a confidence. -/
structure ParsedAmount where
  quantity : Option Rat
  unit : Option String
  confidence : Rat
  deriving Repr, DecidableEq

/-- One element of `parsed.name` as returned by the external library. -/
structure ParsedName where
  text : Option String
  confidence : Rat
  deriving Repr, DecidableEq

/-- The result object of the external `parse_ingredient` call. -/
structure ParsedIngredient where
  amount : List ParsedAmount
  name : List ParsedName
  comment : Option String
  prepNote : Option String
  deriving Repr, DecidableEq

/-- The record returned by `parse_ingredient_string`. -/
structure NormalizedIngredient where
  quantity : Option Rat
  unit : Option String
  ingredient_name : Option String
  notes : Option String
  raw_text : String
  parsing_confidence : Rat
  parsed_successfully : Bool
  deriving Repr, DecidableEq

/-- Python truthiness of an optional numeric value (`if amount.quantity:`):
falsy when absent or zero. -/
def truthyQ : Option Rat → Bool
  | none => false
  | some q => q != 0

/-- Python truthiness of an optional string (`if name.text:`): falsy when
absent or empty. -/
def truthyS : Option String → Bool
  | none => false
  | some t => !t.isEmpty

/-- Python `str.strip()` with no argument: drop whitespace from both
ends. -/
def pyStrip (s : String) : String :=
  String.mk
    (((s.data.dropWhile Char.isWhitespace).reverse.dropWhile
        Char.isWhitespace).reverse)

/-- Python `str.lower()`. -/
def pyLower (s : String) : String := String.mk (s.data.map Char.toLower)

/-- Python `s.strip().lower()`. -/
def stripLower (s : String) : String := pyLower (pyStrip s)

/-- `IngredientParsingService.parse_ingredient_string`, with the external
`parse_ingredient` call abstracted by its outcome: `none` models the call
raising (any exception, caught by the `except` branch), `some parsed`
models a successful parse.  The embedding is a total function, matching the
source guarantee that the method always returns a record. -/
def parse_ingredient_string (ingredient_text : String)
    (parsed? : Option ParsedIngredient) : NormalizedIngredient :=
  match parsed? with
  | none =>
    { quantity := none, unit := none,
      ingredient_name := some (stripLower ingredient_text),
      notes := none, raw_text := ingredient_text,
      parsing_confidence := 1/10, parsed_successfully := false }
  | some parsed =>
    let qua : Option Rat × Option String × Rat :=
      match parsed.amount with
      | [] => (none, none, 8/10)
      | amount :: _ =>
        (if truthyQ amount.quantity then amount.quantity else none,
         if truthyS amount.unit then amount.unit else none,
         amount.confidence)
    let nam : Option String × Rat :=
      match parsed.name with
      | [] => (none, 8/10)
      | name :: _ =>
        (if truthyS name.text then name.text else none, name.confidence)
    let notes : Option String :=
      if truthyS parsed.comment then parsed.comment
      else if truthyS parsed.prepNote then parsed.prepNote
      else none
    { quantity := qua.1, unit := qua.2.1,
      ingredient_name :=
        match nam.1 with
        | some n => some (stripLower n)
        | none => none,
      notes := notes,
      raw_text := ingredient_text,
      parsing_confidence := (qua.2.2 + nam.2) / 2,
      parsed_successfully := true }

/-! ## Ingredient catalog (`find_or_create_ingredient`) -/

/-- `ingredients` table row (`models.Ingredient`). -/
structure IngredientRow where
  id : Nat
  name : String
  category : Option String
  deriving Repr, DecidableEq

/-- `IngredientParsingService.find_or_create_ingredient`.

The lookup (`select(Ingredient).where(name == normalized)`, `.first()`)
runs against the rows this session's snapshot can see, `catalog`;
`concurrent` are rows committed by other sessions between this call's
lookup and its insert, so the storage uniqueness constraint on
`Ingredient.name` is checked against `catalog ++ concurrent` at insert
time.  An insert violating it raises, which the source catches: it rolls
back (the new row is discarded, others' committed rows remain) and returns
`None`.  Returns the committed table and the value handed to the caller. -/
def find_or_create_ingredient (catalog concurrent : List IngredientRow)
    (newId : Nat) (ingredient_name : String) :
    List IngredientRow × Option IngredientRow :=
  if ingredient_name.isEmpty then (catalog ++ concurrent, none)
  else
    let normalized_name := stripLower ingredient_name
    match (catalog.filter (fun i => i.name == normalized_name)).head? with
    | some existing_ingredient => (catalog ++ concurrent, some existing_ingredient)
    | none =>
      if (catalog ++ concurrent).any (fun i => i.name == normalized_name) then
        (catalog ++ concurrent, none)
      else
        let new_ingredient : IngredientRow :=
          { id := newId, name := normalized_name, category := none }
        ((catalog ++ concurrent) ++ [new_ingredient], some new_ingredient)

/-! ## Leaving a household (`HouseholdService.leave_household`) -/

/-- The `user.current_household_id = x` mutation pattern shared by the
household operations: fetch via `UserService.get_user` and, when the row
exists, update it. -/
def set_current_household (s : DB) (userId : Nat) (hid : Option Nat) :
    Except String DB :=
  match get_user s userId with
  | .error e => .error e
  | .ok none => .ok s
  | .ok (some _) =>
    .ok { s with users := s.users.map (fun v =>
      if v.id == userId then { v with currentHouseholdId := hid } else v) }

/-- `HouseholdService.leave_household`. -/
def leave_household (s : DB) (userId : Nat) : Except String (DB × Bool) :=
  match scalarOneOrNone (s.memberships.filter (fun m => m.userId == userId)) with
  | .error e => .error e
  | .ok none => .ok (s, false)
  | .ok (some membership) =>
    match set_current_household s userId none with
    | .error e => .error e
    | .ok s1 =>
      .ok ({ s1 with memberships := s1.memberships.erase membership }, true)

/-! ## Shopping-list generation (`ShoppingListService`) -/

/-- `recipe_ingredients` row as loaded for aggregation, with its
`ingredient` relationship (`selectinload` in
`MealPlanService.get_meal_plan`). -/
structure RecipeIngredientLine where
  ingredientId : Option Nat
  quantity : Option Rat
  unit : Option String
  ingredient : Option IngredientRow
  deriving Repr, DecidableEq

/-- A recipe as seen by the aggregation: its loaded ingredient lines. -/
structure LoadedRecipe where
  lines : List RecipeIngredientLine
  deriving Repr, DecidableEq

/-- `planned_meals` row with its loaded recipe; `completed` is carried to
show the aggregation never reads it. -/
structure PlannedMealRow where
  recipe : Option LoadedRecipe
  completed : Bool
  deriving Repr, DecidableEq

/-- `meal_plans` row with its loaded planned meals. -/
structure MealPlanRow where
  id : Nat
  householdId : Nat
  name : Option String
  plannedMeals : List PlannedMealRow
  deriving Repr, DecidableEq

/-- One value of the `ingredient_quantities` dict. -/
structure AggEntry where
  quantity : Rat
  unit : Option String
  ingredient : Option IngredientRow
  deriving Repr, DecidableEq

/-- A generated `shopping_list_items` row. -/
structure ShoppingItem where
  ingredientId : Option Nat
  quantity : Rat
  unit : Option String
  category : Option String
  deriving Repr, DecidableEq

/-- The generated shopping list. -/
structure GeneratedList where
  userId : Nat
  householdId : Nat
  mealPlanId : Nat
  itemName : String
  items : List ShoppingItem
  deriving Repr, DecidableEq

/-- The lines the aggregation loop iterates over:
`if planned_meal.recipe and planned_meal.recipe.recipe_ingredients:` (a
missing recipe or an empty line list is skipped). -/
def visitedLines (meals : List PlannedMealRow) : List RecipeIngredientLine :=
  meals.flatMap (fun pm =>
    match pm.recipe with
    | none => []
    | some r => if r.lines.isEmpty then [] else r.lines)

/-- The dict entry started for a first-seen ingredient:
`quantity or 0`, the line's unit, the line's resolved ingredient. -/
def initEntry (l : RecipeIngredientLine) : AggEntry :=
  { quantity := if truthyQ l.quantity then l.quantity.getD 0 else 0,
    unit := l.unit, ingredient := l.ingredient }

/-- The dict-entry update for an already-seen ingredient:
`if recipe_ingredient.quantity: ... += quantity` (plain numeric addition,
no unit conversion). -/
def updEntry (l : RecipeIngredientLine) (e : AggEntry) : AggEntry :=
  { quantity :=
      if truthyQ l.quantity then e.quantity + l.quantity.getD 0
      else e.quantity,
    unit := e.unit, ingredient := e.ingredient }

/-- One iteration of the aggregation loop body, over the (insertion-
ordered) `ingredient_quantities` dict represented as an association
list. -/
def addLine (acc : List (Option Nat × AggEntry)) (l : RecipeIngredientLine) :
    List (Option Nat × AggEntry) :=
  if acc.any (fun kv => kv.1 == l.ingredientId) then
    acc.map (fun kv =>
      if kv.1 == l.ingredientId then (kv.1, updEntry l kv.2) else kv)
  else
    acc ++ [(l.ingredientId, initEntry l)]

/-- The whole aggregation pass of
`generate_shopping_list_from_meal_plan`. -/
def aggregate (meals : List PlannedMealRow) : List (Option Nat × AggEntry) :=
  (visitedLines meals).foldl addLine []

/-- The `ShoppingListItem` rows created from the aggregated dict. -/
def itemsOf (agg : List (Option Nat × AggEntry)) : List ShoppingItem :=
  agg.map (fun kv =>
    { ingredientId := kv.1, quantity := kv.2.quantity, unit := kv.2.unit,
      category :=
        match kv.2.ingredient with
        | some ing => ing.category
        | none => none })

/-- `ShoppingListService.generate_shopping_list_from_meal_plan` (the
lookup, list-header fields and generated items; row ids and timestamps are
storage concerns). -/
def generate_shopping_list_from_meal_plan (plans : List MealPlanRow)
    (userId mealPlanId : Nat) : Except String GeneratedList :=
  match scalarOneOrNone (plans.filter (fun p => p.id == mealPlanId)) with
  | .error e => .error e
  | .ok none => .error "Meal plan not found"
  | .ok (some meal_plan) =>
    .ok { userId := userId, householdId := meal_plan.householdId,
          mealPlanId := mealPlanId,
          itemName := "Shopping List for " ++
            (match meal_plan.name with
             | some n => if n.isEmpty then "Meal Plan" else n
             | none => "Meal Plan"),
          items := itemsOf (aggregate meal_plan.plannedMeals) }

/-- The numeric contribution of one line (`quantity or 0`). -/
def lineQty (l : RecipeIngredientLine) : Rat := l.quantity.getD 0

/-- Sum of the quantities of the lines carrying ingredient key `k`. -/
def sumQty (k : Option Nat) (ls : List RecipeIngredientLine) : Rat :=
  ((ls.filter (fun l => l.ingredientId == k)).map lineQty).sum

/-- The dict entry stored under key `k`. -/
def entryFor : List (Option Nat × AggEntry) → Option Nat → Option AggEntry
  | [], _ => none
  | kv :: rest, k => if kv.1 == k then some kv.2 else entryFor rest k

/-! ## Joining and creating households (`HouseholdService`) -/

/-- The recipe ids read by `_grant_user_recipes_to_household`:
`select(Recipe.id).where(user_id == userId, shared_with_household)`. -/
def user_shared_recipe_ids (s : DB) (userId : Nat) : List Nat :=
  (s.recipes.filter
    (fun r => r.userId == userId && r.sharedWithHousehold == true)).map
    (fun r => r.id)

/-- The `for recipe_id in ...: grant_household_access(...)` loop of
`_grant_user_recipes_to_household`. -/
def grant_recipes_loop (s : DB) (ids : List Nat) (householdId userId : Nat) :
    Except String DB :=
  match ids with
  | [] => .ok s
  | rid :: rest =>
    match grant_household_access s rid householdId userId with
    | .error e => .error e
    | .ok (s1, _) => grant_recipes_loop s1 rest householdId userId

/-- `HouseholdService._grant_user_recipes_to_household`. -/
def grant_user_recipes_to_household (s : DB) (userId householdId : Nat) :
    Except String DB :=
  grant_recipes_loop s (user_shared_recipe_ids s userId) householdId userId

/-- Outcome of `join_household`: returning `None`, raising the
`ValueError`, or returning the new membership. -/
inductive JoinResult where
  | notFound
  | alreadyMember
  | joined (m : MembershipRow)
  deriving Repr, DecidableEq

/-- `HouseholdService.join_household`. -/
def join_household (s : DB) (userId : Nat) (invite_code : String) :
    Except String (DB × JoinResult) :=
  match get_household_by_invite_code s invite_code with
  | .error e => .error e
  | .ok none => .ok (s, .notFound)
  | .ok (some household) =>
    match scalarOneOrNone
        (s.memberships.filter (fun m => m.userId == userId)) with
    | .error e => .error e
    | .ok (some _) => .ok (s, .alreadyMember)
    | .ok none =>
      let membership : MembershipRow :=
        { householdId := household.id, userId := userId, role := "member" }
      let s1 : DB := { s with memberships := s.memberships ++ [membership] }
      match set_current_household s1 userId (some household.id) with
      | .error e => .error e
      | .ok s2 =>
        match grant_user_recipes_to_household s2 userId household.id with
        | .error e => .error e
        | .ok s3 => .ok (s3, .joined membership)

/-- The invite-code generation loop of `create_household`: candidate codes
from the `secrets` RNG are consumed until one is not already taken; `none`
models the loop not finding a free code within the supplied stream. -/
def find_unused_code (s : DB) : List String → Except String (Option String)
  | [] => .ok none
  | c :: rest =>
    match get_household_by_invite_code s c with
    | .error e => .error e
    | .ok none => .ok (some c)
    | .ok (some _) => find_unused_code s rest

/-- `HouseholdService.create_household`; `newId` is the id the storage
layer assigns to the inserted household row at `flush`, `codes` the stream
of generated invite-code candidates. -/
def create_household (s : DB) (userId : Nat) (hname : String) (newId : Nat)
    (codes : List String) : Except String (Option (DB × HouseholdRow)) :=
  match find_unused_code s codes with
  | .error e => .error e
  | .ok none => .ok none
  | .ok (some invite_code) =>
    let household : HouseholdRow :=
      { id := newId, name := hname, createdBy := userId,
        inviteCode := invite_code }
    let s1 : DB := { s with households := s.households ++ [household] }
    let membership : MembershipRow :=
      { householdId := newId, userId := userId, role := "admin" }
    let s2 : DB := { s1 with memberships := s1.memberships ++ [membership] }
    match set_current_household s2 userId (some newId) with
    | .error e => .error e
    | .ok s3 =>
      match grant_user_recipes_to_household s3 userId newId with
      | .error e => .error e
      | .ok s4 => .ok (some (s4, household))

/-! ## Verified properties -/

/-- A filter whose predicate can hold of at most one element (by pairwise
incompatibility) returns an empty or singleton list. -/
theorem filter_nil_or_singleton {α : Type} (l : List α) (p : α → Bool)
    (h : l.Pairwise fun a b => ¬(p a = true ∧ p b = true)) :
    l.filter p = [] ∨ ∃ a, l.filter p = [a] := by
  induction l with
  | nil => exact Or.inl rfl
  | cons x xs ih =>
    rcases List.pairwise_cons.mp h with ⟨hx, hxs⟩
    by_cases hpx : p x = true
    · right
      refine ⟨x, ?_⟩
      have hnil : xs.filter p = [] := by
        rw [List.filter_eq_nil_iff]
        intro b hb hpb
        exact hx b hb ⟨hpx, hpb⟩
      simp [List.filter_cons, hpx, hnil]
    · have hstep : (x :: xs).filter p = xs.filter p := by
        simp [List.filter_cons, hpx]
      rw [hstep]
      exact ih hxs

theorem scalarOneOrNone_eq_head {α : Type} (l : List α)
    (h : l = [] ∨ ∃ a, l = [a]) :
    scalarOneOrNone l = .ok l.head? := by
  rcases h with h | ⟨a, h⟩ <;> subst h <;> rfl

theorem filter_eq_singleton_of_mem {α : Type} (l : List α) (p : α → Bool)
    (h : l.Pairwise fun a b => ¬(p a = true ∧ p b = true))
    (a : α) (ha : a ∈ l) (hpa : p a = true) :
    l.filter p = [a] := by
  have hmem : a ∈ l.filter p := List.mem_filter.mpr ⟨ha, hpa⟩
  rcases filter_nil_or_singleton l p h with hnil | ⟨b, hb⟩
  · rw [hnil] at hmem
    cases hmem
  · rw [hb] at hmem
    have hab := List.mem_singleton.mp hmem
    subst hab
    exact hb

theorem find?_eq_filter_head {α : Type} (l : List α) (p : α → Bool) :
    l.find? p = (l.filter p).head? := by
  induction l with
  | nil => rfl
  | cons x xs ih =>
    cases hpx : p x with
    | true =>
      rw [List.find?_cons, List.filter_cons, hpx]
      rfl
    | false =>
      rw [List.find?_cons, List.filter_cons, hpx]
      simpa using ih

theorem recipes_id_filter_pairwise (s : DB)
    (hrec : s.recipes.Pairwise fun a b => a.id ≠ b.id) (rid : Nat) :
    s.recipes.Pairwise fun a b =>
      ¬((a.id == rid) = true ∧ (b.id == rid) = true) := by
  refine hrec.imp ?_
  intro a b hab hc
  rcases hc with ⟨ha, hb⟩
  rw [beq_iff_eq] at ha hb
  exact hab (ha.trans hb.symm)

/-- C9: `can_user_edit_recipe(recipe, user)` is true iff the user owns the
recipe; grants play no role (the state `s` carries arbitrary grants). -/
theorem can_user_edit_recipe_iff_owner (s : DB) (r : RecipeRow) (u : Nat)
    (hrec : s.recipes.Pairwise fun a b => a.id ≠ b.id) (hr : r ∈ s.recipes) :
    can_user_edit_recipe s r.id u = .ok (decide (r.userId = u)) := by
  have hfil : s.recipes.filter (fun a => a.id == r.id) = [r] :=
    filter_eq_singleton_of_mem _ _ (recipes_id_filter_pairwise s hrec r.id) r hr
      (by simp)
  have hb : ((some r.userId == some u)) = decide (r.userId = u) := by
    by_cases h : r.userId = u <;> simp [h]
  unfold can_user_edit_recipe
  rw [hfil]
  exact congrArg Except.ok hb

/-- Witness for C9 at a concrete store: the owner may edit, a stranger may
not, even though the stranger's household holds a grant. -/
theorem can_user_edit_recipe_witness :
    can_user_edit_recipe
        { users := [{ id := 1, currentHouseholdId := none }],
          households := [{ id := 5, name := "h", createdBy := 2, inviteCode := "AB" }],
          memberships := [{ householdId := 5, userId := 2, role := "member" }],
          recipes := [{ id := 10, userId := 1, sharedWithHousehold := true }],
          grants := [{ recipeId := 10, householdId := 5, grantedBy := 1 }] } 10 1 = .ok true ∧
    can_user_edit_recipe
        { users := [{ id := 1, currentHouseholdId := none }],
          households := [{ id := 5, name := "h", createdBy := 2, inviteCode := "AB" }],
          memberships := [{ householdId := 5, userId := 2, role := "member" }],
          recipes := [{ id := 10, userId := 1, sharedWithHousehold := true }],
          grants := [{ recipeId := 10, householdId := 5, grantedBy := 1 }] } 10 2 = .ok false := by
  constructor
  · have h := can_user_edit_recipe_iff_owner
      { users := [{ id := 1, currentHouseholdId := none }],
        households := [{ id := 5, name := "h", createdBy := 2, inviteCode := "AB" }],
        memberships := [{ householdId := 5, userId := 2, role := "member" }],
        recipes := [{ id := 10, userId := 1, sharedWithHousehold := true }],
        grants := [{ recipeId := 10, householdId := 5, grantedBy := 1 }] }
      { id := 10, userId := 1, sharedWithHousehold := true } 1
      (by decide) (by decide)
    simpa using h
  · have h := can_user_edit_recipe_iff_owner
      { users := [{ id := 1, currentHouseholdId := none }],
        households := [{ id := 5, name := "h", createdBy := 2, inviteCode := "AB" }],
        memberships := [{ householdId := 5, userId := 2, role := "member" }],
        recipes := [{ id := 10, userId := 1, sharedWithHousehold := true }],
        grants := [{ recipeId := 10, householdId := 5, grantedBy := 1 }] }
      { id := 10, userId := 1, sharedWithHousehold := true } 2
      (by decide) (by decide)
    simpa using h

theorem grants_pair_filter_pairwise (l : List AccessGrantRow)
    (hg : l.Pairwise fun a b =>
      ¬(a.recipeId = b.recipeId ∧ a.householdId = b.householdId))
    (rid hid : Nat) :
    l.Pairwise fun a b =>
      ¬((a.recipeId == rid && a.householdId == hid) = true ∧
        (b.recipeId == rid && b.householdId == hid) = true) := by
  refine hg.imp ?_
  intro a b hab hc
  rcases hc with ⟨ha, hb⟩
  rw [Bool.and_eq_true, beq_iff_eq, beq_iff_eq] at ha hb
  exact hab ⟨ha.1.trans hb.1.symm, ha.2.trans hb.2.symm⟩

/-- C4: `grant_household_access` is idempotent.  If a grant for the pair
already exists the call returns `none` and leaves the state unchanged, and
for any well-formed grant table, granting twice in sequence succeeds, the
second call is a no-op returning `none`, and the resulting table holds
exactly one grant row for the pair. -/
theorem grant_household_access_idempotent (s : DB) (rid hid u1 u2 : Nat)
    (hg : s.grants.Pairwise fun a b =>
      ¬(a.recipeId = b.recipeId ∧ a.householdId = b.householdId)) :
    (∀ g ∈ s.grants, g.recipeId = rid → g.householdId = hid →
      grant_household_access s rid hid u1 = .ok (s, none)) ∧
    ∃ s1 o1, grant_household_access s rid hid u1 = .ok (s1, o1) ∧
      grant_household_access s1 rid hid u2 = .ok (s1, none) ∧
      (s1.grants.filter
        (fun g => g.recipeId == rid && g.householdId == hid)).length = 1 := by
  have hpw := grants_pair_filter_pairwise s.grants hg rid hid
  rcases filter_nil_or_singleton s.grants
      (fun g => g.recipeId == rid && g.householdId == hid) hpw with hnil | ⟨g0, hone⟩
  · have hf : ((s.grants ++
        [({ recipeId := rid, householdId := hid, grantedBy := u1 } : AccessGrantRow)]).filter
          (fun g => g.recipeId == rid && g.householdId == hid)) =
        [({ recipeId := rid, householdId := hid, grantedBy := u1 } : AccessGrantRow)] := by
      rw [List.filter_append, hnil]
      simp
    constructor
    · intro g hgmem hgr hgh
      exfalso
      have hmem : g ∈ s.grants.filter
          (fun g => g.recipeId == rid && g.householdId == hid) :=
        List.mem_filter.mpr ⟨hgmem, by simp [hgr, hgh]⟩
      rw [hnil] at hmem
      cases hmem
    · refine ⟨{ s with grants := s.grants ++
          [({ recipeId := rid, householdId := hid, grantedBy := u1 } : AccessGrantRow)] },
        some { recipeId := rid, householdId := hid, grantedBy := u1 }, ?_, ?_, ?_⟩
      · unfold grant_household_access
        rw [hnil]
        rfl
      · unfold grant_household_access
        rw [hf]
        rfl
      · rw [hf]
        rfl
  · constructor
    · intro g hgmem hgr hgh
      unfold grant_household_access
      rw [hone]
      rfl
    · refine ⟨s, none, ?_, ?_, ?_⟩
      · unfold grant_household_access
        rw [hone]
        rfl
      · unfold grant_household_access
        rw [hone]
        rfl
      · rw [hone]
        rfl

/-- Witness for C4 at a concrete store: granting `(10, 5)` twice from an
empty grant table leaves exactly one grant row. -/
theorem grant_household_access_witness :
    ∃ s1 o1, grant_household_access
        { users := [], households := [], memberships := [], recipes := [],
          grants := [] } 10 5 1 = .ok (s1, o1) ∧
      grant_household_access s1 10 5 1 = .ok (s1, none) ∧
      (s1.grants.filter
        (fun g => g.recipeId == 10 && g.householdId == 5)).length = 1 :=
  (grant_household_access_idempotent
    { users := [], households := [], memberships := [], recipes := [],
      grants := [] } 10 5 1 1 (by decide)).2

/-- C5 counterexample: a successful parse of `"flour"` that finds no
ingredient-name token does **not** produce the fallback record — the code
marks it `parsed_successfully = true` with confidence `0.8` (the mean of
the two `0.8` defaults), and the canonical name is `none`, not the
lower-cased raw text. -/
theorem parse_no_name_token_not_fallback :
    (parse_ingredient_string "flour"
        (some { amount := [], name := [], comment := none,
                prepNote := none })).parsed_successfully = true ∧
    (parse_ingredient_string "flour"
        (some { amount := [], name := [], comment := none,
                prepNote := none })).ingredient_name = none ∧
    (parse_ingredient_string "flour"
        (some { amount := [], name := [], comment := none,
                prepNote := none })).parsing_confidence ≠ 1/10 := by
  refine ⟨rfl, rfl, ?_⟩
  show ((8:Rat)/10 + 8/10)/2 ≠ 1/10
  norm_num

/-- C5 (amended): normalization is total and, on a parsing failure
(`parse_ingredient` raising), returns exactly the fallback record —
canonical name the trimmed lower-cased raw text, quantity/unit/notes null,
confidence `0.1`, `parsed_successfully = false`.  On a successful parse the
record keeps `parsed_successfully = true` even when no name token was
found; the canonical name is then null. -/
theorem parse_ingredient_string_fallback (raw : String)
    (parsed? : Option ParsedIngredient) :
    (parsed? = none →
      parse_ingredient_string raw parsed? =
        { quantity := none, unit := none,
          ingredient_name := some (stripLower raw),
          notes := none, raw_text := raw, parsing_confidence := 1/10,
          parsed_successfully := false }) ∧
    (∀ p, parsed? = some p →
      (parse_ingredient_string raw parsed?).parsed_successfully = true ∧
      (parse_ingredient_string raw parsed?).raw_text = raw ∧
      (p.name = [] →
        (parse_ingredient_string raw parsed?).ingredient_name = none)) := by
  constructor
  · intro h
    subst h
    rfl
  · intro p h
    subst h
    refine ⟨rfl, rfl, ?_⟩
    intro hn
    simp [parse_ingredient_string, hn]

/-- Witness for C5 (amended) at concrete inputs: the fallback record for
raw text `" Corn Kernels "` under a parser failure, and the
successfully-parsed flag under a successful parse. -/
theorem parse_ingredient_string_fallback_witness :
    parse_ingredient_string " Corn Kernels " none =
      { quantity := none, unit := none, ingredient_name := some "corn kernels",
        notes := none, raw_text := " Corn Kernels ",
        parsing_confidence := 1/10, parsed_successfully := false } ∧
    (parse_ingredient_string "x"
        (some { amount := [], name := [], comment := none,
                prepNote := none })).parsed_successfully = true := by
  constructor
  · have h := (parse_ingredient_string_fallback " Corn Kernels " none).1 rfl
    rw [h]
    rfl
  · exact ((parse_ingredient_string_fallback "x"
      (some { amount := [], name := [], comment := none, prepNote := none })).2
      _ rfl).1

/-- C7 counterexample: the session's lookup misses `"salt"`, a concurrent
creator commits `"salt"` before our insert, the insert hits the uniqueness
constraint — and the caller receives `none`, not the existing catalog
entry. -/
theorem find_or_create_race_counterexample :
    find_or_create_ingredient [] [{ id := 1, name := "salt", category := none }]
        2 "salt" =
      ([{ id := 1, name := "salt", category := none }], none) ∧
    (find_or_create_ingredient [] [{ id := 1, name := "salt", category := none }]
        2 "salt").2 ≠ some { id := 1, name := "salt", category := none } := by
  decide

/-- C7 (amended): when the name is non-empty, the session's snapshot has no
entry for the normalized name, and a concurrent creator has committed one,
the uniqueness violation on insert is swallowed: the call rolls back and
returns `none` to the caller.  No error is surfaced — but the existing
entry is not re-read either. -/
theorem find_or_create_ingredient_race (catalog concurrent : List IngredientRow)
    (newId : Nat) (name : String)
    (hne : name.isEmpty = false)
    (hmiss : ∀ i ∈ catalog, i.name ≠ stripLower name)
    (hconf : ∃ i ∈ concurrent, i.name = stripLower name) :
    find_or_create_ingredient catalog concurrent newId name =
      (catalog ++ concurrent, none) := by
  have hfil : catalog.filter (fun i => i.name == stripLower name) = [] := by
    rw [List.filter_eq_nil_iff]
    intro i hi hpi
    exact hmiss i hi (by rwa [beq_iff_eq] at hpi)
  have hany : (catalog ++ concurrent).any
      (fun i => i.name == stripLower name) = true := by
    rcases hconf with ⟨i, hi, hin⟩
    exact List.any_eq_true.mpr
      ⟨i, List.mem_append_right _ hi, by rw [beq_iff_eq]; exact hin⟩
  unfold find_or_create_ingredient
  simp only [hne, Bool.false_eq_true, if_false, hfil, List.head?_nil, hany, if_true]

/-- Witness for C7 (amended) at a concrete store. -/
theorem find_or_create_ingredient_race_witness :
    find_or_create_ingredient [{ id := 3, name := "pepper", category := none }]
        [{ id := 1, name := "salt", category := none }] 2 "Salt " =
      ([{ id := 3, name := "pepper", category := none },
        { id := 1, name := "salt", category := none }], none) :=
  find_or_create_ingredient_race _ _ 2 "Salt " (by decide) (by decide)
    ⟨{ id := 1, name := "salt", category := none }, by decide, by decide⟩

theorem users_id_filter_pairwise (s : DB)
    (husers : s.users.Pairwise fun a b => a.id ≠ b.id) (uid : Nat) :
    s.users.Pairwise fun a b =>
      ¬((a.id == uid) = true ∧ (b.id == uid) = true) := by
  refine husers.imp ?_
  intro a b hab hc
  rcases hc with ⟨ha, hb⟩
  rw [beq_iff_eq] at ha hb
  exact hab (ha.trans hb.symm)

theorem memberships_user_filter_pairwise (s : DB)
    (hmem : s.memberships.Pairwise fun a b => a.userId ≠ b.userId) (uid : Nat) :
    s.memberships.Pairwise fun a b =>
      ¬((a.userId == uid) = true ∧ (b.userId == uid) = true) := by
  refine hmem.imp ?_
  intro a b hab hc
  rcases hc with ⟨ha, hb⟩
  rw [beq_iff_eq] at ha hb
  exact hab (ha.trans hb.symm)

/-- With unique user ids, the fetch-then-mutate pattern behaves as a map
over the user table (an identity map when the user does not exist). -/
theorem set_current_household_eq (s : DB) (u : Nat) (hid : Option Nat)
    (husers : s.users.Pairwise fun a b => a.id ≠ b.id) :
    set_current_household s u hid =
      .ok { s with users := s.users.map (fun v =>
        if v.id == u then { v with currentHouseholdId := hid } else v) } := by
  have hpw := users_id_filter_pairwise s husers u
  unfold set_current_household get_user
  rcases filter_nil_or_singleton s.users (fun v => v.id == u) hpw with hnil | ⟨a, hone⟩
  · rw [hnil]
    have hmap : s.users.map (fun v =>
        if v.id == u then { v with currentHouseholdId := hid } else v) = s.users := by
      have hcong : ∀ v ∈ s.users,
          (if v.id == u then { v with currentHouseholdId := hid } else v) = id v := by
        intro v hv
        have h1 := List.filter_eq_nil_iff.mp hnil v hv
        have h2 : (v.id == u) = false := by
          cases hvb : (v.id == u)
          · rfl
          · exact absurd hvb h1
        simp [h2]
      rw [List.map_congr_left hcong, List.map_id]
    rw [hmap]
    rfl
  · rw [hone]
    rfl

/-- C8: `leave_household` is a no-op returning `false` when the user has no
membership; otherwise it clears the user's `current_household`, deletes the
membership row, and leaves every access-grant row (and the household and
recipe tables) unchanged — grants issued to the left household are not
retracted. -/
theorem leave_household_correct (s : DB) (u : Nat) (hwf : WF s) :
    ((∀ m ∈ s.memberships, m.userId ≠ u) →
      leave_household s u = .ok (s, false)) ∧
    (∀ m0 ∈ s.memberships, m0.userId = u →
      leave_household s u = .ok
        ({ users := s.users.map (fun v =>
              if v.id == u then { v with currentHouseholdId := none } else v),
           households := s.households,
           memberships := s.memberships.erase m0,
           recipes := s.recipes,
           grants := s.grants }, true)) := by
  obtain ⟨husers, _hh, _hc, hmem, _hr, _hg⟩ := hwf
  have hpwm := memberships_user_filter_pairwise s hmem u
  constructor
  · intro hnone
    have hnil : s.memberships.filter (fun m => m.userId == u) = [] := by
      rw [List.filter_eq_nil_iff]
      intro m hm hpm
      exact hnone m hm (by rwa [beq_iff_eq] at hpm)
    unfold leave_household
    rw [hnil]
    rfl
  · intro m0 hm0 hm0u
    have hone : s.memberships.filter (fun m => m.userId == u) = [m0] :=
      filter_eq_singleton_of_mem _ _ hpwm m0 hm0 (by rw [beq_iff_eq]; exact hm0u)
    have hstep : leave_household s u =
        match set_current_household s u none with
        | .error e => .error e
        | .ok s1 => .ok ({ s1 with memberships := s1.memberships.erase m0 }, true) := by
      unfold leave_household
      rw [hone]
      rfl
    rw [hstep, set_current_household_eq s u none husers]

/-- Witness for C8 at concrete stores: leaving with a membership clears
`current_household`, removes the membership and keeps the grant; leaving
without one is a `false` no-op. -/
theorem leave_household_witness :
    leave_household
      { users := [{ id := 2, currentHouseholdId := some 5 }],
        households := [{ id := 5, name := "h", createdBy := 2, inviteCode := "AB" }],
        memberships := [{ householdId := 5, userId := 2, role := "member" }],
        recipes := [],
        grants := [{ recipeId := 9, householdId := 5, grantedBy := 2 }] } 2 =
      .ok ({ users := [{ id := 2, currentHouseholdId := none }],
             households := [{ id := 5, name := "h", createdBy := 2, inviteCode := "AB" }],
             memberships := [],
             recipes := [],
             grants := [{ recipeId := 9, householdId := 5, grantedBy := 2 }] }, true) ∧
    leave_household
      { users := [{ id := 3, currentHouseholdId := none }], households := [],
        memberships := [], recipes := [], grants := [] } 3 =
      .ok ({ users := [{ id := 3, currentHouseholdId := none }], households := [],
             memberships := [], recipes := [], grants := [] }, false) := by
  constructor
  · have h := (leave_household_correct
      { users := [{ id := 2, currentHouseholdId := some 5 }],
        households := [{ id := 5, name := "h", createdBy := 2, inviteCode := "AB" }],
        memberships := [{ householdId := 5, userId := 2, role := "member" }],
        recipes := [],
        grants := [{ recipeId := 9, householdId := 5, grantedBy := 2 }] } 2
      (by decide)).2 { householdId := 5, userId := 2, role := "member" }
      (by decide) rfl
    rw [h]
    rfl
  · exact (leave_household_correct
      { users := [{ id := 3, currentHouseholdId := none }], households := [],
        memberships := [], recipes := [], grants := [] } 3
      (by decide)).1 (by decide)

theorem flatMap_nil_of_forall {α β : Type} (l : List α) (f : α → List β)
    (h : ∀ a ∈ l, f a = []) : l.flatMap f = [] := by
  induction l with
  | nil => rfl
  | cons x xs ih =>
    rw [List.flatMap_cons, h x (List.mem_cons_self x xs), List.nil_append]
    exact ih (fun a ha => h a (List.mem_cons_of_mem _ ha))

/-- When the user has no membership, the
`Household join HouseholdMembership` result is empty. -/
theorem user_household_join_nil (s : DB) (u : Nat)
    (hnil : s.memberships.filter (fun m => m.userId == u) = []) :
    user_household_join s u = [] := by
  unfold user_household_join
  apply flatMap_nil_of_forall
  intro h _hh
  have hf : s.memberships.filter
      (fun m => m.householdId == h.id && m.userId == u) = [] := by
    rw [List.filter_eq_nil_iff]
    intro m hm hpm
    rw [Bool.and_eq_true] at hpm
    have hmem2 : m ∈ s.memberships.filter (fun m => m.userId == u) :=
      List.mem_filter.mpr ⟨hm, hpm.2⟩
    rw [hnil] at hmem2
    cases hmem2
  rw [hf]
  rfl

/-- When the user has exactly one membership `m0`, the join collapses to
the households carrying `m0.householdId`. -/
theorem user_household_join_singleton (s : DB) (u : Nat) (m0 : MembershipRow)
    (hone : s.memberships.filter (fun m => m.userId == u) = [m0]) :
    user_household_join s u =
      s.households.filter (fun h => m0.householdId == h.id) := by
  have hinner : ∀ hh : HouseholdRow,
      s.memberships.filter (fun m => m.householdId == hh.id && m.userId == u) =
        if (m0.householdId == hh.id) = true then [m0] else [] := by
    intro hh
    have hsw : s.memberships.filter
        (fun m => m.householdId == hh.id && m.userId == u) =
        (s.memberships.filter (fun m => m.userId == u)).filter
          (fun m => m.householdId == hh.id) := by
      rw [List.filter_filter]
    rw [hsw, hone]
    by_cases hx : (m0.householdId == hh.id) = true
    · simp [List.filter_cons, hx]
    · simp [List.filter_cons, hx]
  unfold user_household_join
  induction s.households with
  | nil => rfl
  | cons x xs ih =>
    rw [List.flatMap_cons, List.filter_cons, hinner x]
    by_cases hx : (m0.householdId == x.id) = true
    · rw [if_pos hx, if_pos hx, ih]
      rfl
    · rw [if_neg hx, if_neg hx, ih]
      rfl

theorem households_id_filter_pairwise (s : DB)
    (hh : s.households.Pairwise fun a b => a.id ≠ b.id) (hid : Nat) :
    s.households.Pairwise fun a b =>
      ¬((hid == a.id) = true ∧ (hid == b.id) = true) := by
  refine hh.imp ?_
  intro a b hab hc
  rcases hc with ⟨ha, hb⟩
  rw [beq_iff_eq] at ha hb
  exact hab (ha.symm.trans hb)

/-- C1: `can_user_access_recipe` returns true iff the user owns the recipe,
or the user currently belongs to a household (a membership row joined to an
existing household row) and that household holds a grant for the recipe. -/
theorem can_user_access_recipe_iff (s : DB) (r : RecipeRow) (u : Nat)
    (hwf : WF s) (hr : r ∈ s.recipes) :
    ∃ b, can_user_access_recipe s r.id u = .ok b ∧
      (b = true ↔ (r.userId = u ∨
        ∃ m ∈ s.memberships, m.userId = u ∧
        ∃ h ∈ s.households, h.id = m.householdId ∧
        ∃ g ∈ s.grants, g.recipeId = r.id ∧ g.householdId = h.id)) := by
  obtain ⟨_hu, hhouse, _hc, hmem, hrec, hgr⟩ := hwf
  have hfil : s.recipes.filter (fun a => a.id == r.id) = [r] :=
    filter_eq_singleton_of_mem _ _ (recipes_id_filter_pairwise s hrec r.id) r hr
      (by simp)
  unfold can_user_access_recipe
  rw [hfil]
  by_cases hown : r.userId = u
  · refine ⟨true, ?_, ?_⟩
    · have hb : ((some r.userId == some u)) = true := by simp [hown]
      simp only [scalarOneOrNone, List.map_cons, List.map_nil, hb, if_true]
    · exact ⟨fun _ => Or.inl hown, fun _ => rfl⟩
  · have hb : ((some r.userId == some u)) = false := by simp [hown]
    have hpwm := memberships_user_filter_pairwise s hmem u
    rcases filter_nil_or_singleton s.memberships (fun m => m.userId == u) hpwm
        with hmnil | ⟨m0, hmone⟩
    · -- no membership at all
      have hjoin := user_household_join_nil s u hmnil
      refine ⟨false, ?_, ?_⟩
      · simp only [scalarOneOrNone, List.map_cons, List.map_nil, hb,
          Bool.false_eq_true, if_false, get_user_household, hjoin]
      · constructor
        · intro hfalse
          cases hfalse
        · intro hcon
          rcases hcon with hcon | ⟨m, hm, hmu, _⟩
          · exact absurd hcon hown
          · have : m ∈ s.memberships.filter (fun m => m.userId == u) :=
              List.mem_filter.mpr ⟨hm, by rw [beq_iff_eq]; exact hmu⟩
            rw [hmnil] at this
            cases this
    · -- exactly one membership m0
      have hm0mem : m0 ∈ s.memberships.filter (fun m => m.userId == u) := by
        rw [hmone]
        exact List.mem_singleton.mpr rfl
      have hm0 := List.mem_filter.mp hm0mem
      have hm0u : m0.userId = u := by
        have := hm0.2
        rwa [beq_iff_eq] at this
      have hmuniq : ∀ m ∈ s.memberships, m.userId = u → m = m0 := by
        intro m hm hmu
        have hmf : m ∈ s.memberships.filter (fun m => m.userId == u) :=
          List.mem_filter.mpr ⟨hm, by rw [beq_iff_eq]; exact hmu⟩
        rw [hmone] at hmf
        exact List.mem_singleton.mp hmf
      have hjoin := user_household_join_singleton s u m0 hmone
      have hpwh := households_id_filter_pairwise s hhouse m0.householdId
      rcases filter_nil_or_singleton s.households
          (fun h => m0.householdId == h.id) hpwh with hhnil | ⟨h0, hhone⟩
      · -- membership points at no existing household
        refine ⟨false, ?_, ?_⟩
        · simp only [scalarOneOrNone, List.map_cons, List.map_nil, hb,
            Bool.false_eq_true, if_false, get_user_household, hjoin, hhnil]
        · constructor
          · intro hfalse
            cases hfalse
          · intro hcon
            rcases hcon with hcon | ⟨m, hm, hmu, h, hh, hhid, _⟩
            · exact absurd hcon hown
            · have hmm0 := hmuniq m hm hmu
              have hhid0 : h.id = m0.householdId := by
                rw [← hmm0]
                exact hhid
              have hmem3 : h ∈ s.households.filter
                  (fun h => m0.householdId == h.id) :=
                List.mem_filter.mpr ⟨hh, by rw [beq_iff_eq]; exact hhid0.symm⟩
              rw [hhnil] at hmem3
              cases hmem3
      · -- the household h0 exists
        have hh0mem : h0 ∈ s.households.filter (fun h => m0.householdId == h.id) := by
          rw [hhone]
          exact List.mem_singleton.mpr rfl
        have hh0 := List.mem_filter.mp hh0mem
        have hh0id : h0.id = m0.householdId := by
          have := hh0.2
          rw [beq_iff_eq] at this
          exact this.symm
        have hhuniq : ∀ h ∈ s.households, h.id = m0.householdId → h = h0 := by
          intro h hh hhid
          have hhf : h ∈ s.households.filter (fun h => m0.householdId == h.id) :=
            List.mem_filter.mpr ⟨hh, by rw [beq_iff_eq]; exact hhid.symm⟩
          rw [hhone] at hhf
          exact List.mem_singleton.mp hhf
        have hpwg := grants_pair_filter_pairwise s.grants hgr r.id h0.id
        rcases filter_nil_or_singleton s.grants
            (fun g => g.recipeId == r.id && g.householdId == h0.id) hpwg
            with hgnil | ⟨g0, hgone⟩
        · refine ⟨false, ?_, ?_⟩
          · simp only [scalarOneOrNone, List.map_cons, List.map_nil, hb,
              Bool.false_eq_true, if_false, get_user_household, hjoin, hhone,
              hgnil]
            rfl
          · constructor
            · intro hfalse
              cases hfalse
            · intro hcon
              rcases hcon with hcon | ⟨m, hm, hmu, h, hh, hhid, g, hg, hgrid, hghid⟩
              · exact absurd hcon hown
              · have hmm0 := hmuniq m hm hmu
                have hhid0 : h.id = m0.householdId := by
                  rw [← hmm0]
                  exact hhid
                have hhh0 := hhuniq h hh hhid0
                have hghid0 : g.householdId = h0.id := by
                  rw [← hhh0]
                  exact hghid
                have hmem4 : g ∈ s.grants.filter
                    (fun g => g.recipeId == r.id && g.householdId == h0.id) :=
                  List.mem_filter.mpr ⟨hg, by
                    rw [Bool.and_eq_true, beq_iff_eq, beq_iff_eq]
                    exact ⟨hgrid, hghid0⟩⟩
                rw [hgnil] at hmem4
                cases hmem4
        · have hg0mem : g0 ∈ s.grants.filter
              (fun g => g.recipeId == r.id && g.householdId == h0.id) := by
            rw [hgone]
            exact List.mem_singleton.mpr rfl
          have hg0 := List.mem_filter.mp hg0mem
          have hg0p : g0.recipeId = r.id ∧ g0.householdId = h0.id := by
            have := hg0.2
            rwa [Bool.and_eq_true, beq_iff_eq, beq_iff_eq] at this
          refine ⟨true, ?_, ?_⟩
          · simp only [scalarOneOrNone, List.map_cons, List.map_nil, hb,
              Bool.false_eq_true, if_false, get_user_household, hjoin, hhone,
              hgone]
            rfl
          · refine ⟨fun _ => Or.inr ?_, fun _ => rfl⟩
            exact ⟨m0, hm0.1, hm0u, h0, hh0.1, hh0id, g0, hg0.1, hg0p.1, hg0p.2⟩

/-- Witness for C1 at a concrete store: a non-owner with a household grant
has access; a non-owner with no membership does not. -/
theorem can_user_access_recipe_witness :
    can_user_access_recipe
      { users := [{ id := 1, currentHouseholdId := none },
                  { id := 2, currentHouseholdId := some 5 }],
        households := [{ id := 5, name := "h", createdBy := 2, inviteCode := "AB" }],
        memberships := [{ householdId := 5, userId := 2, role := "admin" }],
        recipes := [{ id := 10, userId := 1, sharedWithHousehold := true }],
        grants := [{ recipeId := 10, householdId := 5, grantedBy := 1 }] } 10 2 =
      .ok true ∧
    can_user_access_recipe
      { users := [{ id := 1, currentHouseholdId := none },
                  { id := 3, currentHouseholdId := none }],
        households := [],
        memberships := [],
        recipes := [{ id := 10, userId := 1, sharedWithHousehold := true }],
        grants := [{ recipeId := 10, householdId := 5, grantedBy := 1 }] } 10 3 =
      .ok false := by
  constructor
  · obtain ⟨b, hb, hiff⟩ := can_user_access_recipe_iff
      { users := [{ id := 1, currentHouseholdId := none },
                  { id := 2, currentHouseholdId := some 5 }],
        households := [{ id := 5, name := "h", createdBy := 2, inviteCode := "AB" }],
        memberships := [{ householdId := 5, userId := 2, role := "admin" }],
        recipes := [{ id := 10, userId := 1, sharedWithHousehold := true }],
        grants := [{ recipeId := 10, householdId := 5, grantedBy := 1 }] }
      { id := 10, userId := 1, sharedWithHousehold := true } 2
      (by decide)
      (by decide)
    have hbtrue : b = true := hiff.mpr (Or.inr
      ⟨{ householdId := 5, userId := 2, role := "admin" }, by decide, rfl,
       { id := 5, name := "h", createdBy := 2, inviteCode := "AB" }, by decide, rfl,
       { recipeId := 10, householdId := 5, grantedBy := 1 }, by decide, rfl, rfl⟩)
    rw [hbtrue] at hb
    exact hb
  · obtain ⟨b, hb, hiff⟩ := can_user_access_recipe_iff
      { users := [{ id := 1, currentHouseholdId := none },
                  { id := 3, currentHouseholdId := none }],
        households := [],
        memberships := [],
        recipes := [{ id := 10, userId := 1, sharedWithHousehold := true }],
        grants := [{ recipeId := 10, householdId := 5, grantedBy := 1 }] }
      { id := 10, userId := 1, sharedWithHousehold := true } 3
      (by decide)
      (by decide)
    have hbfalse : b = false := by
      cases hbv : b
      · rfl
      · exfalso
        have hcon := hiff.mp hbv
        rcases hcon with hcon | ⟨m, hm, _⟩
        · exact absurd hcon (by decide)
        · cases hm
    rw [hbfalse] at hb
    exact hb

theorem truthy_init_eq_getD (q : Option Rat) :
    (if truthyQ q then q.getD 0 else 0) = q.getD 0 := by
  cases q with
  | none => rfl
  | some v =>
    by_cases hv : v = 0
    · subst hv
      simp [truthyQ]
    · simp [truthyQ, hv]

theorem truthy_add_eq_getD (a : Rat) (q : Option Rat) :
    (if truthyQ q then a + q.getD 0 else a) = a + q.getD 0 := by
  cases q with
  | none => simp [truthyQ]
  | some v =>
    by_cases hv : v = 0
    · subst hv
      simp [truthyQ]
    · simp [truthyQ, hv]

theorem any_of_entryFor (acc : List (Option Nat × AggEntry)) (k : Option Nat)
    (e : AggEntry) (he : entryFor acc k = some e) :
    acc.any (fun kv => kv.1 == k) = true := by
  induction acc with
  | nil => cases he
  | cons kv kvs ih =>
    rw [List.any_cons]
    by_cases hk : (kv.1 == k) = true
    · simp [hk]
    · simp only [entryFor] at he
      rw [if_neg hk] at he
      simp [hk, ih he]

theorem any_false_of_entryFor_none (acc : List (Option Nat × AggEntry))
    (k : Option Nat) (he : entryFor acc k = none) :
    acc.any (fun kv => kv.1 == k) = false := by
  induction acc with
  | nil => rfl
  | cons kv kvs ih =>
    simp only [entryFor] at he
    by_cases hk : (kv.1 == k) = true
    · rw [if_pos hk] at he
      cases he
    · rw [if_neg hk] at he
      rw [List.any_cons]
      have hkf : (kv.1 == k) = false := by
        cases hkv : (kv.1 == k)
        · rfl
        · exact absurd hkv hk
      rw [hkf, ih he]
      rfl

theorem entryFor_cons_pos (kv : Option Nat × AggEntry)
    (rest : List (Option Nat × AggEntry)) (k : Option Nat)
    (h : (kv.1 == k) = true) :
    entryFor (kv :: rest) k = some kv.2 := by
  show (if (kv.1 == k) = true then some kv.2 else entryFor rest k) = some kv.2
  rw [if_pos h]

theorem entryFor_cons_neg (kv : Option Nat × AggEntry)
    (rest : List (Option Nat × AggEntry)) (k : Option Nat)
    (h : (kv.1 == k) = false) :
    entryFor (kv :: rest) k = entryFor rest k := by
  show (if (kv.1 == k) = true then some kv.2 else entryFor rest k) =
    entryFor rest k
  rw [if_neg (by simp [h])]

theorem entryFor_map_upd (acc : List (Option Nat × AggEntry))
    (key k : Option Nat) (g : AggEntry → AggEntry) :
    entryFor (acc.map (fun kv =>
        if kv.1 == key then (kv.1, g kv.2) else kv)) k =
      if key == k then (entryFor acc k).map g else entryFor acc k := by
  induction acc with
  | nil =>
    cases hkk : (key == k) <;> simp [entryFor]
  | cons kv kvs ih =>
    cases hk1 : (kv.1 == key) with
    | true =>
      have hk1eq : kv.1 = key := by rwa [beq_iff_eq] at hk1
      cases hk2 : (kv.1 == k) with
      | true =>
        have hk2eq : kv.1 = k := by rwa [beq_iff_eq] at hk2
        have hkk : (key == k) = true := by
          rw [beq_iff_eq, ← hk1eq, hk2eq]
        simp only [List.map_cons, if_pos hk1]
        rw [entryFor_cons_pos _ _ _ (show ((kv.1, g kv.2).1 == k) = true from hk2),
          if_pos hkk, entryFor_cons_pos _ _ _ hk2]
        rfl
      | false =>
        have hkk : (key == k) = false := by
          cases hkkv : (key == k)
          · rfl
          · exfalso
            rw [beq_iff_eq] at hkkv
            rw [hk1eq, hkkv] at hk2
            simp at hk2
        simp only [List.map_cons, if_pos hk1]
        rw [entryFor_cons_neg _ _ _ (show ((kv.1, g kv.2).1 == k) = false from hk2),
          ih, if_neg (by simp [hkk]), entryFor_cons_neg _ _ _ hk2,
          if_neg (by simp [hkk])]
    | false =>
      cases hk2 : (kv.1 == k) with
      | true =>
        have hkk : (key == k) = false := by
          cases hkkv : (key == k)
          · rfl
          · exfalso
            rw [beq_iff_eq] at hkkv
            have hk2eq : kv.1 = k := by rwa [beq_iff_eq] at hk2
            rw [hk2eq, hkkv] at hk1
            simp at hk1
        simp only [List.map_cons, if_neg (show ¬(kv.1 == key) = true by simp [hk1])]
        rw [entryFor_cons_pos _ _ _ hk2, if_neg (by simp [hkk]),
          entryFor_cons_pos _ _ _ hk2]
      | false =>
        simp only [List.map_cons, if_neg (show ¬(kv.1 == key) = true by simp [hk1])]
        rw [entryFor_cons_neg _ _ _ hk2, ih, entryFor_cons_neg _ _ _ hk2]

theorem entryFor_append_single (acc : List (Option Nat × AggEntry))
    (kv0 : Option Nat × AggEntry) (k : Option Nat) :
    entryFor (acc ++ [kv0]) k =
      match entryFor acc k with
      | some e => some e
      | none => if kv0.1 == k then some kv0.2 else none := by
  induction acc with
  | nil => rfl
  | cons kv kvs ih =>
    by_cases hk : (kv.1 == k) = true
    · simp [entryFor, hk]
    · simp [entryFor, hk, ih]

theorem updEntry_eq (l : RecipeIngredientLine) (e : AggEntry) :
    updEntry l e =
      { quantity := e.quantity + lineQty l, unit := e.unit,
        ingredient := e.ingredient } := by
  unfold updEntry lineQty
  rw [truthy_add_eq_getD]

theorem initEntry_eq (l : RecipeIngredientLine) :
    initEntry l =
      { quantity := lineQty l, unit := l.unit, ingredient := l.ingredient } := by
  unfold initEntry lineQty
  rw [truthy_init_eq_getD]

theorem entryFor_addLine_self (acc : List (Option Nat × AggEntry))
    (l : RecipeIngredientLine) :
    entryFor (addLine acc l) l.ingredientId =
      some (match entryFor acc l.ingredientId with
        | some e => { e with quantity := e.quantity + lineQty l }
        | none =>
          { quantity := lineQty l, unit := l.unit,
            ingredient := l.ingredient }) := by
  unfold addLine
  cases hE : entryFor acc l.ingredientId with
  | some e =>
    have hany := any_of_entryFor acc l.ingredientId e hE
    rw [if_pos hany, entryFor_map_upd, if_pos (by simp), hE]
    show some (updEntry l e) = _
    rw [updEntry_eq]
  | none =>
    have hany := any_false_of_entryFor_none acc l.ingredientId hE
    rw [if_neg (by simp [hany]), entryFor_append_single, hE]
    show (if ((l.ingredientId, initEntry l).1 == l.ingredientId) = true
        then some (l.ingredientId, initEntry l).2 else none) =
      some { quantity := lineQty l, unit := l.unit, ingredient := l.ingredient }
    rw [if_pos (by simp)]
    show some (initEntry l) = _
    rw [initEntry_eq]

theorem entryFor_addLine_ne (acc : List (Option Nat × AggEntry))
    (l : RecipeIngredientLine) (k : Option Nat)
    (hk : (l.ingredientId == k) = false) :
    entryFor (addLine acc l) k = entryFor acc k := by
  unfold addLine
  by_cases hany : (acc.any (fun kv => kv.1 == l.ingredientId)) = true
  · rw [if_pos hany, entryFor_map_upd, hk]
    simp
  · rw [if_neg hany, entryFor_append_single]
    cases hE : entryFor acc k
    · simp [hk]
    · simp

theorem sumQty_cons_pos (l : RecipeIngredientLine)
    (ls : List RecipeIngredientLine) (k : Option Nat)
    (hk : (l.ingredientId == k) = true) :
    sumQty k (l :: ls) = lineQty l + sumQty k ls := by
  unfold sumQty
  rw [List.filter_cons, if_pos hk, List.map_cons, List.sum_cons]

theorem sumQty_cons_neg (l : RecipeIngredientLine)
    (ls : List RecipeIngredientLine) (k : Option Nat)
    (hk : (l.ingredientId == k) = false) :
    sumQty k (l :: ls) = sumQty k ls := by
  unfold sumQty
  rw [List.filter_cons, if_neg (by simp [hk])]

/-- Fold characterization, existing key: the entry keeps accumulating the
`quantity or 0` values of the `k`-keyed lines by plain addition; unit and
ingredient object stay as first recorded. -/
theorem foldl_addLine_entry_some (ls : List RecipeIngredientLine)
    (acc : List (Option Nat × AggEntry)) (k : Option Nat) (e : AggEntry)
    (he : entryFor acc k = some e) :
    entryFor (ls.foldl addLine acc) k =
      some { quantity := e.quantity + sumQty k ls, unit := e.unit,
             ingredient := e.ingredient } := by
  induction ls generalizing acc e with
  | nil =>
    rw [List.foldl_nil, he]
    have h0 : sumQty k ([] : List RecipeIngredientLine) = 0 := rfl
    rw [h0, add_zero]
  | cons l ls ih =>
    rw [List.foldl_cons]
    cases hk : (l.ingredientId == k) with
    | true =>
      have hkeq : l.ingredientId = k := by rwa [beq_iff_eq] at hk
      subst hkeq
      have hstep := entryFor_addLine_self acc l
      rw [he] at hstep
      have hstep2 : entryFor (addLine acc l) l.ingredientId =
          some { quantity := e.quantity + lineQty l, unit := e.unit,
                 ingredient := e.ingredient } := hstep
      have hrec := ih (addLine acc l)
          { quantity := e.quantity + lineQty l, unit := e.unit,
            ingredient := e.ingredient } hstep2
      rw [hrec, sumQty_cons_pos l ls l.ingredientId hk]
      dsimp only
      rw [add_assoc]
    | false =>
      have hstep := entryFor_addLine_ne acc l k hk
      have hrec := ih (addLine acc l) e (hstep.trans he)
      rw [hrec, sumQty_cons_neg l ls k hk]

/-- Fold characterization, fresh key: the first `k`-keyed line starts the
entry (its `quantity or 0`, its unit, its ingredient object) and the rest
add their quantities. -/
theorem foldl_addLine_entry_none (ls : List RecipeIngredientLine)
    (acc : List (Option Nat × AggEntry)) (k : Option Nat)
    (he : entryFor acc k = none) :
    entryFor (ls.foldl addLine acc) k =
      match ls.filter (fun l => l.ingredientId == k) with
      | [] => none
      | m :: ms =>
        some { quantity := lineQty m + (ms.map lineQty).sum,
               unit := m.unit, ingredient := m.ingredient } := by
  induction ls generalizing acc with
  | nil =>
    rw [List.foldl_nil, he]
    rfl
  | cons l ls ih =>
    rw [List.foldl_cons, List.filter_cons]
    cases hk : (l.ingredientId == k) with
    | true =>
      have hkeq : l.ingredientId = k := by rwa [beq_iff_eq] at hk
      subst hkeq
      rw [if_pos rfl]
      have hstep := entryFor_addLine_self acc l
      rw [he] at hstep
      have hstep2 : entryFor (addLine acc l) l.ingredientId =
          some { quantity := lineQty l, unit := l.unit,
                 ingredient := l.ingredient } := hstep
      have hrec := foldl_addLine_entry_some ls (addLine acc l) l.ingredientId
          { quantity := lineQty l, unit := l.unit, ingredient := l.ingredient }
          hstep2
      rw [hrec]
      dsimp only
      have hs : sumQty l.ingredientId ls =
          ((ls.filter (fun l2 => l2.ingredientId == l.ingredientId)).map
            lineQty).sum := rfl
      rw [hs]
    | false =>
      rw [if_neg (by simp [hk])]
      have hstep := entryFor_addLine_ne acc l k hk
      exact ih (addLine acc l) (hstep.trans he)

/-- `addLine` keeps the dict keys distinct. -/
theorem addLine_keys_pairwise (acc : List (Option Nat × AggEntry))
    (l : RecipeIngredientLine)
    (h : acc.Pairwise fun a b => a.1 ≠ b.1) :
    (addLine acc l).Pairwise fun a b => a.1 ≠ b.1 := by
  unfold addLine
  by_cases hany : (acc.any (fun kv => kv.1 == l.ingredientId)) = true
  · rw [if_pos hany]
    refine List.Pairwise.map _ ?_ h
    intro a b hab
    by_cases ha : (a.1 == l.ingredientId) = true
    · by_cases hb : (b.1 == l.ingredientId) = true
      · rw [if_pos ha, if_pos hb]
        exact hab
      · rw [if_pos ha, if_neg hb]
        exact hab
    · by_cases hb : (b.1 == l.ingredientId) = true
      · rw [if_neg ha, if_pos hb]
        exact hab
      · rw [if_neg ha, if_neg hb]
        exact hab
  · rw [if_neg hany]
    apply List.pairwise_append.mpr
    refine ⟨h, List.pairwise_singleton _ _, ?_⟩
    intro a ha b hb
    have hbv : b = (l.ingredientId, initEntry l) := List.mem_singleton.mp hb
    subst hbv
    have hanyf : acc.any (fun kv => kv.1 == l.ingredientId) = false := by
      cases hv : acc.any (fun kv => kv.1 == l.ingredientId)
      · rfl
      · exact absurd hv hany
    have hnonekey := List.any_eq_false.mp hanyf a ha
    intro hcon
    exact hnonekey (by rw [beq_iff_eq]; exact hcon)

theorem foldl_addLine_keys (ls : List RecipeIngredientLine)
    (acc : List (Option Nat × AggEntry))
    (h : acc.Pairwise fun a b => a.1 ≠ b.1) :
    (ls.foldl addLine acc).Pairwise fun a b => a.1 ≠ b.1 := by
  induction ls generalizing acc with
  | nil => exact h
  | cons l ls ih => exact ih _ (addLine_keys_pairwise acc l h)

/-- With distinct keys, the dict rows filtered at key `k` are exactly the
stored entry. -/
theorem filter_key_of_entryFor (acc : List (Option Nat × AggEntry))
    (k : Option Nat) (e : AggEntry)
    (hpw : acc.Pairwise fun a b => a.1 ≠ b.1)
    (he : entryFor acc k = some e) :
    acc.filter (fun kv => kv.1 == k) = [(k, e)] := by
  induction acc with
  | nil => cases he
  | cons kv kvs ih =>
    rcases List.pairwise_cons.mp hpw with ⟨hhead, htail⟩
    cases hk : (kv.1 == k) with
    | true =>
      have hk1 : kv.1 = k := by rwa [beq_iff_eq] at hk
      have he2 : kv.2 = e := by
        rw [entryFor_cons_pos kv kvs k hk] at he
        exact Option.some.inj he
      have htailnil : kvs.filter (fun kv => kv.1 == k) = [] := by
        rw [List.filter_eq_nil_iff]
        intro b hb hpb
        rw [beq_iff_eq] at hpb
        exact hhead b hb (by rw [hk1, hpb])
      rw [List.filter_cons, if_pos hk, htailnil]
      have hkv : kv = (k, e) := by
        obtain ⟨k1, e1⟩ := kv
        simp only [] at hk1 he2
        rw [hk1, he2]
      rw [hkv]
    | false =>
      rw [List.filter_cons, if_neg (by simp [hk])]
      refine ih htail ?_
      rw [entryFor_cons_neg kv kvs k hk] at he
      exact he

/-- The emitted items filtered at key `k`: exactly one, carrying the summed
quantity, the first-seen line's unit and the first-seen line's ingredient
category. -/
theorem itemsOf_filter_key (meals : List PlannedMealRow) (k : Option Nat)
    (l0 : RecipeIngredientLine) (rest : List RecipeIngredientLine)
    (hfil : (visitedLines meals).filter (fun l => l.ingredientId == k) =
      l0 :: rest) :
    (itemsOf (aggregate meals)).filter (fun it => it.ingredientId == k) =
      [{ ingredientId := k,
         quantity := sumQty k (visitedLines meals),
         unit := l0.unit,
         category := match l0.ingredient with
                     | some ing => ing.category
                     | none => none }] := by
  have hE : entryFor (aggregate meals) k =
      some { quantity := lineQty l0 + (rest.map lineQty).sum,
             unit := l0.unit, ingredient := l0.ingredient } := by
    have h := foldl_addLine_entry_none (visitedLines meals) [] k rfl
    rw [hfil] at h
    exact h
  have hpw := foldl_addLine_keys (visitedLines meals) [] (List.Pairwise.nil)
  have hfk := filter_key_of_entryFor (aggregate meals) k _ hpw hE
  unfold itemsOf
  rw [List.filter_map]
  have hcong : (aggregate meals).filter
      ((fun it : ShoppingItem => it.ingredientId == k) ∘
        (fun kv : Option Nat × AggEntry =>
          ({ ingredientId := kv.1, quantity := kv.2.quantity,
             unit := kv.2.unit,
             category := match kv.2.ingredient with
                         | some ing => ing.category
                         | none => none } : ShoppingItem))) =
      (aggregate meals).filter (fun kv => kv.1 == k) :=
    List.filter_congr (fun kv _ => rfl)
  rw [hcong, hfk, List.map_cons, List.map_nil]
  have hq : lineQty l0 + (rest.map lineQty).sum = sumQty k (visitedLines meals) := by
    unfold sumQty
    rw [hfil, List.map_cons, List.sum_cons]
  rw [← hq]

/-- The aggregation never reads the `completed` flag: flipping it on every
planned meal leaves the visited lines unchanged. -/
theorem visitedLines_ignores_completed (meals : List PlannedMealRow)
    (f : Bool → Bool) :
    visitedLines (meals.map (fun pm =>
      { recipe := pm.recipe, completed := f pm.completed })) =
      visitedLines meals := by
  unfold visitedLines
  rw [List.flatMap_map]

theorem plans_id_filter_pairwise (plans : List MealPlanRow)
    (hpw : plans.Pairwise fun a b => a.id ≠ b.id) (pid : Nat) :
    plans.Pairwise fun a b =>
      ¬((a.id == pid) = true ∧ (b.id == pid) = true) := by
  refine hpw.imp ?_
  intro a b hab hc
  rcases hc with ⟨ha, hb⟩
  rw [beq_iff_eq] at ha hb
  exact hab (ha.trans hb.symm)

/-- C6: for every stored meal plan, generation succeeds, visits every
planned meal whatever its `completed` flag, and emits — for each resolved
ingredient occurring among the visited lines — exactly one item whose
quantity is the plain numeric sum of that ingredient's line quantities
(missing quantity counted as zero, no unit conversion) and whose unit is
the first-seen line's unit. -/
theorem generate_shopping_list_aggregates (plans : List MealPlanRow)
    (userId : Nat) (mp : MealPlanRow)
    (hpw : plans.Pairwise fun a b => a.id ≠ b.id) (hmp : mp ∈ plans) :
    ∃ out, generate_shopping_list_from_meal_plan plans userId mp.id = .ok out ∧
      out.householdId = mp.householdId ∧
      out.items = itemsOf (aggregate mp.plannedMeals) ∧
      (∀ f : Bool → Bool,
        visitedLines (mp.plannedMeals.map (fun pm =>
          { recipe := pm.recipe, completed := f pm.completed })) =
          visitedLines mp.plannedMeals) ∧
      (∀ i : Nat, ∀ l0 rest,
        (visitedLines mp.plannedMeals).filter
            (fun l => l.ingredientId == some i) = l0 :: rest →
        out.items.filter (fun it => it.ingredientId == some i) =
          [{ ingredientId := some i,
             quantity := sumQty (some i) (visitedLines mp.plannedMeals),
             unit := l0.unit,
             category := match l0.ingredient with
                         | some ing => ing.category
                         | none => none }]) := by
  have hfil : plans.filter (fun p => p.id == mp.id) = [mp] :=
    filter_eq_singleton_of_mem _ _ (plans_id_filter_pairwise plans hpw mp.id)
      mp hmp (by simp)
  refine ⟨{ userId := userId, householdId := mp.householdId,
            mealPlanId := mp.id,
            itemName := "Shopping List for " ++
              (match mp.name with
               | some n => if n.isEmpty then "Meal Plan" else n
               | none => "Meal Plan"),
            items := itemsOf (aggregate mp.plannedMeals) }, ?_, rfl, rfl,
          visitedLines_ignores_completed mp.plannedMeals, ?_⟩
  · unfold generate_shopping_list_from_meal_plan
    rw [hfil]
    rfl
  · intro i l0 rest hline
    exact itemsOf_filter_key mp.plannedMeals (some i) l0 rest hline

/-- Witness for C6, the spec's flour example: two planned meals (one
completed) whose recipes each have one line resolving to ingredient `1`
("flour") with quantities 2 and 3 in the same unit; the generated list has
exactly one flour item with quantity 5. -/
theorem generate_shopping_list_witness :
    ∃ out, generate_shopping_list_from_meal_plan
        [{ id := 1, householdId := 5, name := none,
           plannedMeals :=
            [{ recipe := some { lines :=
                [{ ingredientId := some 1, quantity := some 2,
                   unit := some "cup",
                   ingredient := some { id := 1, name := "flour",
                                        category := none } }] },
               completed := false },
             { recipe := some { lines :=
                [{ ingredientId := some 1, quantity := some 3,
                   unit := some "cup",
                   ingredient := some { id := 1, name := "flour",
                                        category := none } }] },
               completed := true }] }] 7 1 = .ok out ∧
      out.items.filter (fun it => it.ingredientId == some 1) =
        [{ ingredientId := some 1, quantity := 5, unit := some "cup",
           category := none }] := by
  obtain ⟨out, hout, _hhh, _hitems, _hcomp, hagg⟩ :=
    generate_shopping_list_aggregates
      [{ id := 1, householdId := 5, name := none,
         plannedMeals :=
          [{ recipe := some { lines :=
              [{ ingredientId := some 1, quantity := some 2,
                 unit := some "cup",
                 ingredient := some { id := 1, name := "flour",
                                      category := none } }] },
             completed := false },
           { recipe := some { lines :=
              [{ ingredientId := some 1, quantity := some 3,
                 unit := some "cup",
                 ingredient := some { id := 1, name := "flour",
                                      category := none } }] },
             completed := true }] }] 7
      { id := 1, householdId := 5, name := none,
        plannedMeals :=
          [{ recipe := some { lines :=
              [{ ingredientId := some 1, quantity := some 2,
                 unit := some "cup",
                 ingredient := some { id := 1, name := "flour",
                                      category := none } }] },
             completed := false },
           { recipe := some { lines :=
              [{ ingredientId := some 1, quantity := some 3,
                 unit := some "cup",
                 ingredient := some { id := 1, name := "flour",
                                      category := none } }] },
             completed := true }] }
      (List.pairwise_singleton _ _) (List.mem_singleton.mpr rfl)
  refine ⟨out, hout, ?_⟩
  have hitems := hagg 1
    { ingredientId := some 1, quantity := some 2, unit := some "cup",
      ingredient := some { id := 1, name := "flour", category := none } }
    [{ ingredientId := some 1, quantity := some 3, unit := some "cup",
       ingredient := some { id := 1, name := "flour", category := none } }]
    rfl
  rw [hitems]
  have hq : sumQty (some 1) (visitedLines
      [{ recipe := some { lines :=
          [{ ingredientId := some 1, quantity := some 2,
             unit := some "cup",
             ingredient := some { id := 1, name := "flour",
                                  category := none } }] },
         completed := false },
       { recipe := some { lines :=
          [{ ingredientId := some 1, quantity := some 3,
             unit := some "cup",
             ingredient := some { id := 1, name := "flour",
                                  category := none } }] },
         completed := true }]) = 5 := by
    show (2:Rat) + (3 + 0) = 5
    norm_num
  rw [hq]

/-- C10: lines whose resolved ingredient id is null are merged into a
single null-keyed item — their quantities are summed as if they were one
ingredient — and (unresolved lines carrying no ingredient object) the item
has a null ingredient reference and null category, rather than such lines
being skipped or kept separate. -/
theorem generate_shopping_list_null_key (plans : List MealPlanRow)
    (userId : Nat) (mp : MealPlanRow)
    (hpw : plans.Pairwise fun a b => a.id ≠ b.id) (hmp : mp ∈ plans)
    (hnoobj : ∀ l ∈ visitedLines mp.plannedMeals,
      l.ingredientId = none → l.ingredient = none) :
    ∀ l0 rest,
      (visitedLines mp.plannedMeals).filter
          (fun l => l.ingredientId == (none : Option Nat)) = l0 :: rest →
      ∃ out, generate_shopping_list_from_meal_plan plans userId mp.id =
          .ok out ∧
        out.items.filter (fun it => it.ingredientId == (none : Option Nat)) =
          [{ ingredientId := none,
             quantity := sumQty none (visitedLines mp.plannedMeals),
             unit := l0.unit, category := none }] := by
  intro l0 rest hline
  have hfil : plans.filter (fun p => p.id == mp.id) = [mp] :=
    filter_eq_singleton_of_mem _ _ (plans_id_filter_pairwise plans hpw mp.id)
      mp hmp (by simp)
  refine ⟨{ userId := userId, householdId := mp.householdId,
            mealPlanId := mp.id,
            itemName := "Shopping List for " ++
              (match mp.name with
               | some n => if n.isEmpty then "Meal Plan" else n
               | none => "Meal Plan"),
            items := itemsOf (aggregate mp.plannedMeals) }, ?_, ?_⟩
  · unfold generate_shopping_list_from_meal_plan
    rw [hfil]
    rfl
  · have h := itemsOf_filter_key mp.plannedMeals none l0 rest hline
    have hl0fil : l0 ∈ (visitedLines mp.plannedMeals).filter
        (fun l => l.ingredientId == (none : Option Nat)) := by
      rw [hline]
      exact List.mem_cons_self _ _
    have hl0mem := (List.mem_filter.mp hl0fil).1
    have hl0id : l0.ingredientId = none := by
      have hp := (List.mem_filter.mp hl0fil).2
      rwa [beq_iff_eq] at hp
    have hing := hnoobj l0 hl0mem hl0id
    rw [hing] at h
    exact h

/-- Witness for C10: two unresolved lines (quantities 1 and 2) across two
meals merge into one null-keyed item with quantity 3, the first line's
unit, and no category — while the resolved line stays separate. -/
theorem generate_shopping_list_null_key_witness :
    ∃ out, generate_shopping_list_from_meal_plan
        [{ id := 4, householdId := 5, name := some "week",
           plannedMeals :=
            [{ recipe := some { lines :=
                [{ ingredientId := none, quantity := some 1,
                   unit := some "cup", ingredient := none },
                 { ingredientId := some 9, quantity := some 7,
                   unit := some "g",
                   ingredient := some { id := 9, name := "salt",
                                        category := some "spice" } }] },
               completed := false },
             { recipe := some { lines :=
                [{ ingredientId := none, quantity := some 2,
                   unit := some "oz", ingredient := none }] },
               completed := false }] }] 7 4 = .ok out ∧
      out.items.filter (fun it => it.ingredientId == (none : Option Nat)) =
        [{ ingredientId := none, quantity := 3, unit := some "cup",
           category := none }] := by
  obtain ⟨out, hout, hitems⟩ := generate_shopping_list_null_key
    [{ id := 4, householdId := 5, name := some "week",
       plannedMeals :=
        [{ recipe := some { lines :=
            [{ ingredientId := none, quantity := some 1,
               unit := some "cup", ingredient := none },
             { ingredientId := some 9, quantity := some 7,
               unit := some "g",
               ingredient := some { id := 9, name := "salt",
                                    category := some "spice" } }] },
           completed := false },
         { recipe := some { lines :=
            [{ ingredientId := none, quantity := some 2,
               unit := some "oz", ingredient := none }] },
           completed := false }] }] 7
    { id := 4, householdId := 5, name := some "week",
      plannedMeals :=
        [{ recipe := some { lines :=
            [{ ingredientId := none, quantity := some 1,
               unit := some "cup", ingredient := none },
             { ingredientId := some 9, quantity := some 7,
               unit := some "g",
               ingredient := some { id := 9, name := "salt",
                                    category := some "spice" } }] },
           completed := false },
         { recipe := some { lines :=
            [{ ingredientId := none, quantity := some 2,
               unit := some "oz", ingredient := none }] },
           completed := false }] }
    (List.pairwise_singleton _ _) (List.mem_singleton.mpr rfl)
    (by
      intro l hl hid
      fin_cases hl <;> first | rfl | (exfalso; exact Option.noConfusion hid))
    { ingredientId := none, quantity := some 1, unit := some "cup",
      ingredient := none }
    [{ ingredientId := none, quantity := some 2, unit := some "oz",
       ingredient := none }]
    rfl
  refine ⟨out, hout, ?_⟩
  rw [hitems]
  have hq : sumQty none (visitedLines
      [{ recipe := some { lines :=
          [{ ingredientId := none, quantity := some 1,
             unit := some "cup", ingredient := none },
           { ingredientId := some 9, quantity := some 7,
             unit := some "g",
             ingredient := some { id := 9, name := "salt",
                                  category := some "spice" } }] },
         completed := false },
       { recipe := some { lines :=
          [{ ingredientId := none, quantity := some 2,
             unit := some "oz", ingredient := none }] },
         completed := false }]) = 3 := by
    show (1:Rat) + (2 + 0) = 3
    norm_num
  rw [hq]

/-- Effect of the propagation loop: it only appends grant rows — every
other table is untouched, existing grants survive, every looped recipe id
ends up granted to the household, and pair-uniqueness is preserved. -/
theorem grant_recipes_loop_ok (ids : List Nat) (s : DB) (hid u : Nat)
    (hg : s.grants.Pairwise fun a b =>
      ¬(a.recipeId = b.recipeId ∧ a.householdId = b.householdId)) :
    ∃ s', grant_recipes_loop s ids hid u = .ok s' ∧
      s'.users = s.users ∧ s'.households = s.households ∧
      s'.memberships = s.memberships ∧ s'.recipes = s.recipes ∧
      (∀ g ∈ s.grants, g ∈ s'.grants) ∧
      (∀ rid ∈ ids, ∃ g ∈ s'.grants, g.recipeId = rid ∧ g.householdId = hid) ∧
      s'.grants.Pairwise (fun a b =>
        ¬(a.recipeId = b.recipeId ∧ a.householdId = b.householdId)) := by
  induction ids generalizing s with
  | nil =>
    exact ⟨s, rfl, rfl, rfl, rfl, rfl, fun g hgm => hgm,
      fun rid hr => absurd hr (List.not_mem_nil _), hg⟩
  | cons rid rest ih =>
    rcases filter_nil_or_singleton s.grants
        (fun g => g.recipeId == rid && g.householdId == hid)
        (grants_pair_filter_pairwise s.grants hg rid hid)
        with hnil | ⟨g0, hone⟩
    · -- no grant for the pair: the step inserts one
      have hstep : grant_household_access s rid hid u =
          .ok ({ s with grants := s.grants ++
            [{ recipeId := rid, householdId := hid, grantedBy := u }] },
            some { recipeId := rid, householdId := hid, grantedBy := u }) := by
        unfold grant_household_access
        rw [hnil]
        rfl
      have hg1 : ({ s with grants := s.grants ++
          [{ recipeId := rid, householdId := hid, grantedBy := u }] } :
            DB).grants.Pairwise (fun a b =>
          ¬(a.recipeId = b.recipeId ∧ a.householdId = b.householdId)) := by
        apply List.pairwise_append.mpr
        refine ⟨hg, List.pairwise_singleton _ _, ?_⟩
        intro a ha b hb
        have hbv := List.mem_singleton.mp hb
        subst hbv
        have hfa := List.filter_eq_nil_iff.mp hnil a ha
        intro hcon
        exact hfa (by
          rw [Bool.and_eq_true, beq_iff_eq, beq_iff_eq]
          exact ⟨hcon.1, hcon.2⟩)
      obtain ⟨s', hloop, h1, h2, h3, h4, h5, h6, h7⟩ := ih _ hg1
      refine ⟨s', ?_, h1, h2, h3, h4, ?_, ?_, h7⟩
      · unfold grant_recipes_loop
        rw [hstep]
        exact hloop
      · intro g hgm
        exact h5 g (List.mem_append_left _ hgm)
      · intro rid2 hr2
        rcases List.mem_cons.mp hr2 with hr2 | hr2
        · subst hr2
          refine ⟨{ recipeId := rid2, householdId := hid, grantedBy := u },
            h5 _ (List.mem_append_right _ (List.mem_singleton.mpr rfl)),
            rfl, rfl⟩
        · exact h6 rid2 hr2
    · -- a grant for the pair exists: the step is a no-op
      have hstep : grant_household_access s rid hid u = .ok (s, none) := by
        unfold grant_household_access
        rw [hone]
        rfl
      obtain ⟨s', hloop, h1, h2, h3, h4, h5, h6, h7⟩ := ih s hg
      refine ⟨s', ?_, h1, h2, h3, h4, h5, ?_, h7⟩
      · unfold grant_recipes_loop
        rw [hstep]
        exact hloop
      · intro rid2 hr2
        rcases List.mem_cons.mp hr2 with hr2 | hr2
        · subst hr2
          have hg0f : g0 ∈ s.grants.filter
              (fun g => g.recipeId == rid2 && g.householdId == hid) := by
            rw [hone]
            exact List.mem_singleton.mpr rfl
          have hg0 := List.mem_filter.mp hg0f
          have hg0p := hg0.2
          rw [Bool.and_eq_true, beq_iff_eq, beq_iff_eq] at hg0p
          exact ⟨g0, h5 g0 hg0.1, hg0p.1, hg0p.2⟩
        · exact h6 rid2 hr2

theorem scalarOneOrNone_none_iff {α : Type} (l : List α)
    (h : scalarOneOrNone l = .ok none) : l = [] := by
  cases l with
  | nil => rfl
  | cons a rest =>
    cases rest with
    | nil => simp [scalarOneOrNone] at h
    | cons b r => simp [scalarOneOrNone] at h

/-- A code found by the generation loop is not carried by any existing
household. -/
theorem find_unused_code_fresh (s : DB) (codes : List String) (c : String)
    (h : find_unused_code s codes = .ok (some c)) :
    ∀ h0 ∈ s.households, h0.inviteCode ≠ c := by
  induction codes with
  | nil => simp [find_unused_code] at h
  | cons c0 rest ih =>
    unfold find_unused_code at h
    cases hlook : get_household_by_invite_code s c0 with
    | error e =>
      rw [hlook] at h
      cases h
    | ok o =>
      cases o with
      | none =>
        rw [hlook] at h
        have hc : c0 = c := by
          have h2 := Except.ok.inj h
          exact Option.some.inj h2
        subst hc
        unfold get_household_by_invite_code at hlook
        have hnil := scalarOneOrNone_none_iff _ hlook
        intro h0 hh0 hcon
        have hmem : h0 ∈ s.households.filter
            (fun h => h.inviteCode == c0) :=
          List.mem_filter.mpr ⟨hh0, by rw [beq_iff_eq]; exact hcon⟩
        rw [hnil] at hmem
        cases hmem
      | some hh =>
        rw [hlook] at h
        exact ih h

theorem households_code_filter_pairwise (s : DB)
    (hc : s.households.Pairwise fun a b => a.inviteCode ≠ b.inviteCode)
    (code : String) :
    s.households.Pairwise fun a b =>
      ¬((a.inviteCode == code) = true ∧ (b.inviteCode == code) = true) := by
  refine hc.imp ?_
  intro a b hab hcon
  rcases hcon with ⟨ha, hb⟩
  rw [beq_iff_eq] at ha hb
  exact hab (ha.trans hb.symm)

/-- C2: `join_household` fails `NotFound` (state unchanged) when no
household carries the code; fails `AlreadyMember` (state unchanged — no
membership row, `current_household` untouched, nothing propagated) when the
user already has a membership; on success inserts exactly one member-role
membership, points the user's `current_household` at the joined household,
and propagates the user's shared recipes to it. -/
theorem join_household_correct (s : DB) (u : Nat) (code : String)
    (hwf : WF s) :
    ((∀ h ∈ s.households, h.inviteCode ≠ code) →
      join_household s u code = .ok (s, .notFound)) ∧
    (∀ h0 ∈ s.households, h0.inviteCode = code →
      (∃ m ∈ s.memberships, m.userId = u) →
      join_household s u code = .ok (s, .alreadyMember)) ∧
    (∀ h0 ∈ s.households, h0.inviteCode = code →
      (∀ m ∈ s.memberships, m.userId ≠ u) →
      ∃ s', join_household s u code =
          .ok (s', .joined { householdId := h0.id, userId := u,
                             role := "member" }) ∧
        s'.memberships = s.memberships ++
          [{ householdId := h0.id, userId := u, role := "member" }] ∧
        s'.households = s.households ∧ s'.recipes = s.recipes ∧
        s'.users = s.users.map (fun v =>
          if v.id == u then { v with currentHouseholdId := some h0.id }
          else v) ∧
        (∀ g ∈ s.grants, g ∈ s'.grants) ∧
        (∀ r ∈ s.recipes, r.userId = u → r.sharedWithHousehold = true →
          ∃ g ∈ s'.grants, g.recipeId = r.id ∧ g.householdId = h0.id)) := by
  obtain ⟨husers, _hhid, hcodes, hmem, _hrec, hgr⟩ := hwf
  refine ⟨?_, ?_, ?_⟩
  · intro hnone
    have hnil : s.households.filter (fun h => h.inviteCode == code) = [] := by
      rw [List.filter_eq_nil_iff]
      intro h hh hph
      exact hnone h hh (by rwa [beq_iff_eq] at hph)
    unfold join_household get_household_by_invite_code
    rw [hnil]
    rfl
  · intro h0 hh0 hcode hex
    have hhone : s.households.filter (fun h => h.inviteCode == code) = [h0] :=
      filter_eq_singleton_of_mem _ _
        (households_code_filter_pairwise s hcodes code) h0 hh0
        (by rw [beq_iff_eq]; exact hcode)
    rcases hex with ⟨m0, hm0, hm0u⟩
    have hmone : s.memberships.filter (fun m => m.userId == u) = [m0] :=
      filter_eq_singleton_of_mem _ _
        (memberships_user_filter_pairwise s hmem u) m0 hm0
        (by rw [beq_iff_eq]; exact hm0u)
    unfold join_household get_household_by_invite_code
    rw [hhone, hmone]
    rfl
  · intro h0 hh0 hcode hnomem
    have hhone : s.households.filter (fun h => h.inviteCode == code) = [h0] :=
      filter_eq_singleton_of_mem _ _
        (households_code_filter_pairwise s hcodes code) h0 hh0
        (by rw [beq_iff_eq]; exact hcode)
    have hmnil : s.memberships.filter (fun m => m.userId == u) = [] := by
      rw [List.filter_eq_nil_iff]
      intro m hm hpm
      exact hnomem m hm (by rwa [beq_iff_eq] at hpm)
    have hset2 : set_current_household
        { s with memberships := s.memberships ++
          [{ householdId := h0.id, userId := u, role := "member" }] }
        u (some h0.id) =
        .ok { users := s.users.map (fun v =>
                if v.id == u then { v with currentHouseholdId := some h0.id }
                else v),
              households := s.households,
              memberships := s.memberships ++
                [{ householdId := h0.id, userId := u, role := "member" }],
              recipes := s.recipes, grants := s.grants } :=
      set_current_household_eq _ u (some h0.id) husers
    obtain ⟨s', hloop, h1, h2, h3, h4, h5, h6, _h7⟩ :=
      grant_recipes_loop_ok
        (user_shared_recipe_ids
          { users := s.users.map (fun v =>
              if v.id == u then { v with currentHouseholdId := some h0.id }
              else v),
            households := s.households,
            memberships := s.memberships ++
              [{ householdId := h0.id, userId := u, role := "member" }],
            recipes := s.recipes, grants := s.grants } u)
        { users := s.users.map (fun v =>
            if v.id == u then { v with currentHouseholdId := some h0.id }
            else v),
          households := s.households,
          memberships := s.memberships ++
            [{ householdId := h0.id, userId := u, role := "member" }],
          recipes := s.recipes, grants := s.grants }
        h0.id u hgr
    have hgrant : grant_user_recipes_to_household
        { users := s.users.map (fun v =>
            if v.id == u then { v with currentHouseholdId := some h0.id }
            else v),
          households := s.households,
          memberships := s.memberships ++
            [{ householdId := h0.id, userId := u, role := "member" }],
          recipes := s.recipes, grants := s.grants } u h0.id = .ok s' := by
      unfold grant_user_recipes_to_household
      exact hloop
    refine ⟨s', ?_, h3.trans rfl, h2, h4, h1.trans rfl, h5, ?_⟩
    · unfold join_household get_household_by_invite_code
      rw [hhone]
      show ((match scalarOneOrNone
            (s.memberships.filter (fun m => m.userId == u)) with
        | .error e => .error e
        | .ok (some _) => .ok (s, JoinResult.alreadyMember)
        | .ok none =>
          match set_current_household
              { s with memberships := s.memberships ++
                [{ householdId := h0.id, userId := u, role := "member" }] }
              u (some h0.id) with
          | .error e => .error e
          | .ok s2 =>
            match grant_user_recipes_to_household s2 u h0.id with
            | .error e => .error e
            | .ok s3 => .ok (s3, JoinResult.joined
                { householdId := h0.id, userId := u, role := "member" })) :
          Except String (DB × JoinResult)) = _
      rw [hmnil]
      show ((match set_current_household
            { s with memberships := s.memberships ++
              [{ householdId := h0.id, userId := u, role := "member" }] }
            u (some h0.id) with
        | .error e => .error e
        | .ok s2 =>
          match grant_user_recipes_to_household s2 u h0.id with
          | .error e => .error e
          | .ok s3 => .ok (s3, JoinResult.joined
              { householdId := h0.id, userId := u, role := "member" })) :
          Except String (DB × JoinResult)) = _
      rw [hset2]
      show ((match grant_user_recipes_to_household
          { users := s.users.map (fun v =>
              if v.id == u then { v with currentHouseholdId := some h0.id }
              else v),
            households := s.households,
            memberships := s.memberships ++
              [{ householdId := h0.id, userId := u, role := "member" }],
            recipes := s.recipes, grants := s.grants } u h0.id with
        | .error e => .error e
        | .ok s3 => .ok (s3, JoinResult.joined
            { householdId := h0.id, userId := u, role := "member" })) :
          Except String (DB × JoinResult)) = _
      rw [hgrant]
    · intro r hr hru hshared
      have hrid : r.id ∈ user_shared_recipe_ids
          { users := s.users.map (fun v =>
              if v.id == u then { v with currentHouseholdId := some h0.id }
              else v),
            households := s.households,
            memberships := s.memberships ++
              [{ householdId := h0.id, userId := u, role := "member" }],
            recipes := s.recipes, grants := s.grants } u := by
        unfold user_shared_recipe_ids
        apply List.mem_map.mpr
        refine ⟨r, ?_, rfl⟩
        apply List.mem_filter.mpr
        refine ⟨hr, ?_⟩
        rw [Bool.and_eq_true, beq_iff_eq, beq_iff_eq]
        exact ⟨hru, hshared⟩
      exact h6 r.id hrid

/-- C3: when `create_household` returns, the new household's invite code
differs from every pre-existing code (generation retried past taken
codes), the membership table gained exactly the creator's admin row — so
the new household has exactly one membership, role `admin`, belonging to
the creator — the creator's `current_household` is the new household, and
the creator's shared recipes were granted to it. -/
theorem create_household_correct (s : DB) (u : Nat) (hname : String)
    (newId : Nat) (codes : List String) (hwf : WF s)
    (hfreshm : ∀ m ∈ s.memberships, m.householdId ≠ newId) :
    ∀ s' hh, create_household s u hname newId codes = .ok (some (s', hh)) →
      hh.id = newId ∧ hh.createdBy = u ∧ hh.name = hname ∧
      (∀ h ∈ s.households, h.inviteCode ≠ hh.inviteCode) ∧
      s'.memberships = s.memberships ++
        [{ householdId := newId, userId := u, role := "admin" }] ∧
      s'.memberships.filter (fun m => m.householdId == newId) =
        [{ householdId := newId, userId := u, role := "admin" }] ∧
      s'.users = s.users.map (fun v =>
        if v.id == u then { v with currentHouseholdId := some newId }
        else v) ∧
      s'.households = s.households ++ [hh] ∧ s'.recipes = s.recipes ∧
      (∀ r ∈ s.recipes, r.userId = u → r.sharedWithHousehold = true →
        ∃ g ∈ s'.grants, g.recipeId = r.id ∧ g.householdId = newId) := by
  obtain ⟨husers, _hhid, _hcodes, _hmem, _hrec, hgr⟩ := hwf
  intro s' hh heq
  cases hfind : find_unused_code s codes with
  | error e =>
    unfold create_household at heq
    rw [hfind] at heq
    exact Except.noConfusion heq
  | ok o =>
    cases o with
    | none =>
      unfold create_household at heq
      rw [hfind] at heq
      exact Option.noConfusion (Except.ok.inj heq)
    | some c =>
      unfold create_household at heq
      rw [hfind] at heq
      have heq2 : ((match set_current_household
            { s with
              households := s.households ++
                [{ id := newId, name := hname, createdBy := u,
                   inviteCode := c }],
              memberships := s.memberships ++
                [{ householdId := newId, userId := u, role := "admin" }] }
            u (some newId) with
        | .error e => .error e
        | .ok s3 =>
          match grant_user_recipes_to_household s3 u newId with
          | .error e2 => .error e2
          | .ok s4 => .ok (some (s4,
              { id := newId, name := hname, createdBy := u,
                inviteCode := c }))) :
          Except String (Option (DB × HouseholdRow))) =
          .ok (some (s', hh)) := heq
      have hset2 : set_current_household
          { s with
            households := s.households ++
              [{ id := newId, name := hname, createdBy := u,
                 inviteCode := c }],
            memberships := s.memberships ++
              [{ householdId := newId, userId := u, role := "admin" }] }
          u (some newId) =
          .ok { users := s.users.map (fun v =>
                  if v.id == u then { v with currentHouseholdId := some newId }
                  else v),
                households := s.households ++
                  [{ id := newId, name := hname, createdBy := u,
                     inviteCode := c }],
                memberships := s.memberships ++
                  [{ householdId := newId, userId := u, role := "admin" }],
                recipes := s.recipes, grants := s.grants } :=
        set_current_household_eq _ u (some newId) husers
      rw [hset2] at heq2
      obtain ⟨s4, hloop, h1, h2, h3, h4, h5, h6, _h7⟩ :=
        grant_recipes_loop_ok
          (user_shared_recipe_ids
            { users := s.users.map (fun v =>
                if v.id == u then { v with currentHouseholdId := some newId }
                else v),
              households := s.households ++
                [{ id := newId, name := hname, createdBy := u,
                   inviteCode := c }],
              memberships := s.memberships ++
                [{ householdId := newId, userId := u, role := "admin" }],
              recipes := s.recipes, grants := s.grants } u)
          { users := s.users.map (fun v =>
              if v.id == u then { v with currentHouseholdId := some newId }
              else v),
            households := s.households ++
              [{ id := newId, name := hname, createdBy := u,
                 inviteCode := c }],
            memberships := s.memberships ++
              [{ householdId := newId, userId := u, role := "admin" }],
            recipes := s.recipes, grants := s.grants }
          newId u hgr
      have hgrant : grant_user_recipes_to_household
          { users := s.users.map (fun v =>
              if v.id == u then { v with currentHouseholdId := some newId }
              else v),
            households := s.households ++
              [{ id := newId, name := hname, createdBy := u,
                 inviteCode := c }],
            memberships := s.memberships ++
              [{ householdId := newId, userId := u, role := "admin" }],
            recipes := s.recipes, grants := s.grants } u newId = .ok s4 := by
        unfold grant_user_recipes_to_household
        exact hloop
      have heq3 : ((match grant_user_recipes_to_household
            { users := s.users.map (fun v =>
                if v.id == u then { v with currentHouseholdId := some newId }
                else v),
              households := s.households ++
                [{ id := newId, name := hname, createdBy := u,
                   inviteCode := c }],
              memberships := s.memberships ++
                [{ householdId := newId, userId := u, role := "admin" }],
              recipes := s.recipes, grants := s.grants } u newId with
        | .error e2 => .error e2
        | .ok s4v => .ok (some (s4v,
            { id := newId, name := hname, createdBy := u,
              inviteCode := c }))) :
          Except String (Option (DB × HouseholdRow))) =
          .ok (some (s', hh)) := heq2
      rw [hgrant] at heq3
      have hpair := Option.some.inj (Except.ok.inj heq3)
      have hs4 : s4 = s' := congrArg Prod.fst hpair
      have hhv : HouseholdRow.mk newId hname u c = hh :=
        congrArg Prod.snd hpair
      subst hs4
      subst hhv
      refine ⟨rfl, rfl, rfl, find_unused_code_fresh s codes c hfind,
        h3.trans rfl, ?_, h1.trans rfl, h2.trans rfl, h4, ?_⟩
      · rw [h3]
        have hfilter : ((s.memberships ++
            [({ householdId := newId, userId := u, role := "admin" } :
              MembershipRow)]).filter (fun m => m.householdId == newId)) =
            [({ householdId := newId, userId := u, role := "admin" } :
              MembershipRow)] := by
          rw [List.filter_append]
          have hold : s.memberships.filter (fun m => m.householdId == newId)
              = [] := by
            rw [List.filter_eq_nil_iff]
            intro m hm hpm
            exact hfreshm m hm (by rwa [beq_iff_eq] at hpm)
          rw [hold]
          simp
        exact hfilter
      · intro r hr hru hshared
        have hrid : r.id ∈ user_shared_recipe_ids
            { users := s.users.map (fun v =>
                if v.id == u then { v with currentHouseholdId := some newId }
                else v),
              households := s.households ++
                [{ id := newId, name := hname, createdBy := u,
                   inviteCode := c }],
              memberships := s.memberships ++
                [{ householdId := newId, userId := u, role := "admin" }],
              recipes := s.recipes, grants := s.grants } u := by
          unfold user_shared_recipe_ids
          apply List.mem_map.mpr
          refine ⟨r, ?_, rfl⟩
          apply List.mem_filter.mpr
          refine ⟨hr, ?_⟩
          rw [Bool.and_eq_true, beq_iff_eq, beq_iff_eq]
          exact ⟨hru, hshared⟩
        exact h6 r.id hrid

/-- Witness for C2 at concrete stores: an unknown code is NotFound, a
second join by a member is AlreadyMember with the state returned unchanged,
and a fresh join inserts the member row, updates `current_household` and
propagates the shared recipe. -/
theorem join_household_witness :
    join_household
      { users := [{ id := 2, currentHouseholdId := none }], households := [],
        memberships := [], recipes := [], grants := [] } 2 "NOPE" =
      .ok ({ users := [{ id := 2, currentHouseholdId := none }],
             households := [], memberships := [], recipes := [],
             grants := [] }, .notFound) ∧
    join_household
      { users := [{ id := 2, currentHouseholdId := some 5 }],
        households := [{ id := 5, name := "h", createdBy := 1,
                         inviteCode := "CODE" }],
        memberships := [{ householdId := 5, userId := 2, role := "member" }],
        recipes := [], grants := [] } 2 "CODE" =
      .ok ({ users := [{ id := 2, currentHouseholdId := some 5 }],
             households := [{ id := 5, name := "h", createdBy := 1,
                              inviteCode := "CODE" }],
             memberships := [{ householdId := 5, userId := 2,
                               role := "member" }],
             recipes := [], grants := [] }, .alreadyMember) ∧
    ∃ s', join_household
        { users := [{ id := 2, currentHouseholdId := none }],
          households := [{ id := 5, name := "h", createdBy := 1,
                           inviteCode := "CODE" }],
          memberships := [],
          recipes := [{ id := 10, userId := 2, sharedWithHousehold := true }],
          grants := [] } 2 "CODE" =
        .ok (s', .joined { householdId := 5, userId := 2,
                           role := "member" }) ∧
      s'.memberships = [{ householdId := 5, userId := 2, role := "member" }] ∧
      s'.users = [{ id := 2, currentHouseholdId := some 5 }] ∧
      ∃ g ∈ s'.grants, g.recipeId = 10 ∧ g.householdId = 5 := by
  refine ⟨?_, ?_, ?_⟩
  · exact (join_household_correct
      { users := [{ id := 2, currentHouseholdId := none }], households := [],
        memberships := [], recipes := [], grants := [] } 2 "NOPE"
      (by decide)).1 (by decide)
  · exact (join_household_correct
      { users := [{ id := 2, currentHouseholdId := some 5 }],
        households := [{ id := 5, name := "h", createdBy := 1,
                         inviteCode := "CODE" }],
        memberships := [{ householdId := 5, userId := 2, role := "member" }],
        recipes := [], grants := [] } 2 "CODE"
      (by decide)).2.1
      { id := 5, name := "h", createdBy := 1, inviteCode := "CODE" }
      (by decide) rfl
      ⟨{ householdId := 5, userId := 2, role := "member" }, by decide, rfl⟩
  · obtain ⟨s', heq, hm, _hh, _hr, hu, _hpres, hprop⟩ :=
      ((join_household_correct
        { users := [{ id := 2, currentHouseholdId := none }],
          households := [{ id := 5, name := "h", createdBy := 1,
                           inviteCode := "CODE" }],
          memberships := [],
          recipes := [{ id := 10, userId := 2,
                        sharedWithHousehold := true }],
          grants := [] } 2 "CODE" (by decide)).2.2
        { id := 5, name := "h", createdBy := 1, inviteCode := "CODE" }
        (by decide) rfl (by decide))
    exact ⟨s', heq, hm, hu,
      hprop { id := 10, userId := 2, sharedWithHousehold := true }
        (by decide) rfl rfl⟩

/-- Witness for C3 at a concrete store: the first candidate code collides
with an existing household, so the second is issued; the new household has
exactly the creator's admin membership and the creator's shared recipe is
granted to it. -/
theorem create_household_witness :
    ({ users := [{ id := 1, currentHouseholdId := some 6 }],
       households := [{ id := 5, name := "old", createdBy := 9,
                        inviteCode := "AAAA" },
                      { id := 6, name := "new", createdBy := 1,
                        inviteCode := "BBBB" }],
       memberships := [{ householdId := 6, userId := 1, role := "admin" }],
       recipes := [{ id := 10, userId := 1, sharedWithHousehold := true }],
       grants := [{ recipeId := 10, householdId := 6, grantedBy := 1 }] } :
        DB).memberships.filter (fun m => m.householdId == 6) =
      [{ householdId := 6, userId := 1, role := "admin" }] ∧
    (∀ h ∈ ({ users := [{ id := 1, currentHouseholdId := none }],
              households := [{ id := 5, name := "old", createdBy := 9,
                               inviteCode := "AAAA" }],
              memberships := [],
              recipes := [{ id := 10, userId := 1,
                            sharedWithHousehold := true }],
              grants := [] } : DB).households,
      h.inviteCode ≠ "BBBB") ∧
    ∃ g ∈ ({ users := [{ id := 1, currentHouseholdId := some 6 }],
             households := [{ id := 5, name := "old", createdBy := 9,
                              inviteCode := "AAAA" },
                            { id := 6, name := "new", createdBy := 1,
                              inviteCode := "BBBB" }],
             memberships := [{ householdId := 6, userId := 1,
                               role := "admin" }],
             recipes := [{ id := 10, userId := 1,
                           sharedWithHousehold := true }],
             grants := [{ recipeId := 10, householdId := 6,
                          grantedBy := 1 }] } : DB).grants,
      g.recipeId = 10 ∧ g.householdId = 6 := by
  have h := create_household_correct
    { users := [{ id := 1, currentHouseholdId := none }],
      households := [{ id := 5, name := "old", createdBy := 9,
                       inviteCode := "AAAA" }],
      memberships := [],
      recipes := [{ id := 10, userId := 1, sharedWithHousehold := true }],
      grants := [] } 1 "new" 6 ["AAAA", "BBBB"] (by decide) (by decide)
    { users := [{ id := 1, currentHouseholdId := some 6 }],
      households := [{ id := 5, name := "old", createdBy := 9,
                       inviteCode := "AAAA" },
                     { id := 6, name := "new", createdBy := 1,
                       inviteCode := "BBBB" }],
      memberships := [{ householdId := 6, userId := 1, role := "admin" }],
      recipes := [{ id := 10, userId := 1, sharedWithHousehold := true }],
      grants := [{ recipeId := 10, householdId := 6, grantedBy := 1 }] }
    { id := 6, name := "new", createdBy := 1, inviteCode := "BBBB" } rfl
  exact ⟨h.2.2.2.2.2.1, h.2.2.2.1,
    h.2.2.2.2.2.2.2.2.2 { id := 10, userId := 1, sharedWithHousehold := true }
      (by decide) rfl rfl⟩

end Mealio
